import Mathlib

/-!
# Verification of the Pearl LoLo AI task-router core

A shallow embedding, in Lean 4, of the routing / provider-orchestration core
of the repository: the router (`src/core/router.py`), the retry executor
(`src/core/utils.py`), the content cache (`src/core/cache.py`), the Sudoku
grid validator (`src/core/sudoku.py`) and the capability providers
(`src/providers/*.py`).

Python strings are modelled as Lean `String`s (the heuristics and payloads in
scope are ASCII).  Python dictionaries with string keys are modelled as
insertion-ordered association lists.  Fallible Python code is embedded in
`Except PyErr`; network and library effects (HTTP calls, the vector store,
the BM25 scorer, the wall clock, `random.random`) are passed in explicitly as
oracle arguments, so each provider's `invoke` is a pure function of the task,
its settings, the cache state and the oracle outcomes.
-/

set_option maxRecDepth 10000

namespace PearlLolo

/-- A Python exception surface: `IndexError`, `KeyError`, or any other
exception carrying its `str()` rendering. -/
inductive PyErr where
  | indexError
  | keyError (key : String)
  | exc (msg : String)
  deriving DecidableEq, Repr

/-- `str(exc)` for the modelled exceptions. -/
def pyErrStr : PyErr → String
  | .indexError => "list index out of range"
  | .keyError k => "'" ++ k ++ "'"
  | .exc m => m

/-- A JSON-representable Python value (the `Any` side of `Dict[str, Any]`
payloads): `None`, booleans, integers, strings, lists and string-keyed
dicts (insertion ordered). -/
inductive PyVal where
  | none
  | bool (b : Bool)
  | int (n : Int)
  | str (s : String)
  | list (xs : List PyVal)
  | dict (kvs : List (String × PyVal))

/-- Python truthiness of a `PyVal` (`bool(v)`). -/
def pyTruthy : PyVal → Bool
  | .none => false
  | .bool b => b
  | .int n => n != 0
  | .str s => s != ""
  | .list xs => !xs.isEmpty
  | .dict kvs => !kvs.isEmpty

/-- Python `int(v)` on the values it accepts in this codebase: integers,
booleans and decimal strings; everything else raises. -/
def pyToInt : PyVal → Except PyErr Int
  | .int n => .ok n
  | .bool b => .ok (if b then 1 else 0)
  | .str s =>
      match s.trim.toInt? with
      | some n => .ok n
      | Option.none => .error (.exc ("invalid literal for int(): " ++ s))
  | _ => .error (.exc "int() argument must be a string or a number")

/-! ## Python string helpers (ASCII behaviour of the methods the core uses) -/

/-- `str.lower()` (ASCII range, which covers every heuristic token in scope). -/
def pyLower (s : String) : String := ⟨s.data.map Char.toLower⟩

/-- `needle in hay`: substring containment on character lists. -/
def subList (needle : List Char) : List Char → Bool
  | [] => needle.isEmpty
  | c :: rest => needle.isPrefixOf (c :: rest) || subList needle rest

/-- Python's `sub in s` substring test. -/
def pyContains (s sub : String) : Bool := subList sub.data s.data

/-- `str.capitalize()`: first character upper-cased, the rest lower-cased. -/
def pyCapitalize (s : String) : String :=
  match s.data with
  | [] => ""
  | c :: rest => ⟨c.toUpper :: rest.map Char.toLower⟩

/-- `s[:n]` character slicing with a non-negative bound. -/
def strTake (s : String) (n : Nat) : String := ⟨s.data.take n⟩

/-- `xs[:k]` for a possibly negative Python slice bound `k`. -/
def pySlice {α : Type} (xs : List α) (k : Int) : List α :=
  if 0 ≤ k then xs.take k.toNat
  else xs.take (xs.length - min xs.length k.natAbs)

/-- `str.title()` after `replace('_', ' ')` is only applied to ASCII field
names; title-casing: an alphabetic character is upper-cased when it follows a
non-alphabetic character, lower-cased otherwise. -/
def pyTitleGo : List Char → Bool → List Char
  | [], _ => []
  | c :: rest, prevAlpha =>
      if c.isAlpha then
        (if prevAlpha then c.toLower else c.toUpper) :: pyTitleGo rest true
      else
        c :: pyTitleGo rest false

/-- `str.title()` (ASCII). -/
def pyTitle (s : String) : String := ⟨pyTitleGo s.data false⟩

/-- `str.replace('_', ' ')`. -/
def underscoreToSpace (s : String) : String :=
  ⟨s.data.map fun c => if c = '_' then ' ' else c⟩

/-! ## Data model (`src/core/contracts.py`) -/

/-- `Capability` enum from `core/contracts.py`. -/
inductive Capability where
  | chat
  | solve
  | rag
  | tts
  | stt
  | search
  deriving DecidableEq, Repr

/-- `Message` model: a role and a content string. -/
structure Message where
  role : String
  content : String
  deriving DecidableEq, Repr

/-- `Attachment` model. -/
structure Attachment where
  kind : String
  path_or_uri : String
  meta : List (String × PyVal) := []

/-- `Task` model: intent, ordered messages, free-form params (a string-keyed
dict modelled as an association list), attachments, locale, timezone, tags. -/
structure Task where
  intent : Capability
  messages : List Message
  params : List (String × PyVal) := []
  attachments : List Attachment := []
  locale : String := "en-GB"
  tz : String := "Asia/Kuwait"
  user_tags : List String := []

/-- `task.params.get(key, default)`. -/
def paramGetD (t : Task) (key : String) (dflt : PyVal) : PyVal :=
  match t.params.lookup key with
  | some v => v
  | Option.none => dflt

/-- `Citation` model: source identifier, optional snippet, optional score. -/
structure Citation where
  source : String
  snippet : Option String := Option.none
  score : Option ℚ := Option.none
  deriving DecidableEq, Repr

/-- `Usage` model. -/
structure Usage where
  prompt_tokens : Nat := 0
  completion_tokens : Nat := 0
  latency_ms : Nat := 0
  deriving DecidableEq, Repr

/-- `ProviderResult` model. -/
structure ProviderResult where
  ok : Bool
  text : String := ""
  data : PyVal := .dict []
  citations : List Citation := []
  usage : Usage := {}
  warnings : List String := []
  finish_reason : String := "stop"

/-! ## Router (`src/core/router.py`)

A provider registry is a partial map from capabilities to invocation
behaviours; a provider's `invoke` is abstracted as `Task → ProviderResult`
for routing purposes (which provider is invoked, on which task).  `route` is
embedded in `Except PyErr` because `task.messages[-1]` raises `IndexError`
on an empty message list and `self.providers[Capability.CHAT]` raises
`KeyError` when no chat provider is registered. -/

/-- A provider registry: `Dict[Capability, Provider]`. -/
def Providers : Type := Capability → Option (Task → ProviderResult)

/-- The `want_sources` heuristic of `Router.route`: some message content
contains `"source"` or `"citation"` after lower-casing. -/
def wantSources (t : Task) : Bool :=
  t.messages.any fun m =>
    pyContains (pyLower m.content) "source" || pyContains (pyLower m.content) "citation"

/-- The step-3 heuristic of `Router.route` on the last message: content,
stripped and lower-cased, starts with `"net:"` or `"search:"`. -/
def lastTriggersSearch (m : Message) : Bool :=
  let last := pyLower m.content.trim
  last.startsWith "net:" || last.startsWith "search:"

/-- `Router.route` (`src/core/router.py`), with the registered-intent check,
the source/citation heuristic, the last-message `net:`/`search:` heuristic
and the chat fallback, in source order.  Reading `task.messages[-1]` is
unconditional once the first two steps fail, exactly as in the source. -/
def route (ps : Providers) (t : Task) : Except PyErr ProviderResult :=
  match ps t.intent with
  | some p => .ok (p t)
  | Option.none =>
    let step3 : Except PyErr ProviderResult :=
      match t.messages.getLast? with
      | Option.none => .error .indexError
      | some m =>
        let goChat : Except PyErr ProviderResult :=
          match ps Capability.chat with
          | some p => .ok (p t)
          | Option.none => .error (.keyError "Capability.CHAT")
        if lastTriggersSearch m then
          match ps Capability.search with
          | some p => .ok (p t)
          | Option.none => goChat
        else goChat
    if wantSources t then
      match ps Capability.rag with
      | some p => .ok (p t)
      | Option.none => step3
    else step3

/-! ## Sudoku grid validator (`src/core/sudoku.py`)

Grids are strings, modelled as character lists.  Python's `str.isdigit` is
modelled on the ASCII digits, the only characters occurring in the grids in
scope. -/

/-- `ch.isdigit()` for the ASCII digits. -/
def pyIsDigit (c : Char) : Bool := '0' ≤ c && c ≤ '9'

/-- `valid_81`: exactly 81 characters, all digits. -/
def valid_81 (g : List Char) : Bool :=
  g.length == 81 && g.all pyIsDigit

/-- The blank characters skipped by the validator loop. -/
def isBlank (c : Char) : Bool := c = '0' || c = '.' || c = ' ' || c = '\n'

/-- `_rc` row component: `i // 9`. -/
def rowOf (i : Nat) : Nat := i / 9

/-- `_rc` column component: `i % 9`. -/
def colOf (i : Nat) : Nat := i % 9

/-- Box index `(r // 3) * 3 + (c // 3)` of `is_valid_sudoku`. -/
def boxOf (r c : Nat) : Nat := (r / 3) * 3 + c / 3

/-- Box index of a flat position. -/
def boxAt (i : Nat) : Nat := boxOf (rowOf i) (colOf i)

/-- The `for i, ch in enumerate(grid)` loop of `is_valid_sudoku`, carrying the
`rows`, `cols` and `boxes` sets (sets of characters, modelled as lists: the
loop rejects before ever inserting a duplicate). -/
def sudokuLoop : List Char → Nat → (Nat → List Char) → (Nat → List Char) →
    (Nat → List Char) → Bool
  | [], _, _, _, _ => true
  | ch :: rest, i, rows, cols, boxes =>
      if isBlank ch then sudokuLoop rest (i + 1) rows cols boxes
      else
        let r := rowOf i
        let c := colOf i
        let b := boxOf r c
        if ch ∈ rows r ∨ ch ∈ cols c ∨ ch ∈ boxes b then false
        else
          sudokuLoop rest (i + 1)
            (fun x => if x = r then ch :: rows r else rows x)
            (fun x => if x = c then ch :: cols c else cols x)
            (fun x => if x = b then ch :: boxes b else boxes x)

/-- `is_valid_sudoku` (`src/core/sudoku.py`). -/
def is_valid_sudoku (g : List Char) : Bool :=
  valid_81 g && sudokuLoop g 0 (fun _ => []) (fun _ => []) (fun _ => [])

/-- The example grid from the spec and `tests/test_hrm_validator.py`. -/
def exampleGrid : List Char :=
  ("530070000600195000098000060800060003400803001700020006060000280000419005000080079").data

/-! ## Retry executor (`src/core/utils.py`)

`retry(fn, attempts, base_delay, max_delay)` is embedded with the operation's
outcomes given as an oracle `fn : Nat → Except E V` (outcome of the i-th
invocation) and `random.random()` as an oracle stream `rand : Nat → ℚ`
(the draw used before the i-th inter-attempt sleep).  Float delays are
modelled as rationals.  The embedding returns the raised-or-returned value
together with an effect trace: the list of sleep durations and the number of
invocations performed.  `result = .error Option.none` models `raise None`
(only reachable with `attempts = 0`). -/

/-- The outcome and the effect trace of a `retry` run. -/
structure RetryTrace (E V : Type) where
  result : Except (Option E) V
  sleeps : List ℚ
  calls : Nat
  deriving Repr

/-- The inter-attempt delay after failed attempt `i`:
`min(max_delay, base_delay * (2 ** i)) * (1 + random.random() * 0.25)`. -/
def retryDelay (rand : Nat → ℚ) (base maxd : ℚ) (i : Nat) : ℚ :=
  min maxd (base * 2 ^ i) * (1 + rand i * (1 / 4))

/-- The `for i in range(attempts)` loop of `retry`, at current index `i` with
`remaining` iterations left.  A failure on the final iteration breaks out and
re-raises; otherwise the loop sleeps and continues. -/
def retryLoop {E V : Type} (fn : Nat → Except E V) (rand : Nat → ℚ)
    (base maxd : ℚ) : Nat → Nat → RetryTrace E V
  | _, 0 => ⟨.error Option.none, [], 0⟩
  | i, remaining + 1 =>
    match fn i with
    | .ok v => ⟨.ok v, [], 1⟩
    | .error e =>
      if remaining = 0 then ⟨.error (some e), [], 1⟩
      else
        let t := retryLoop fn rand base maxd (i + 1) remaining
        ⟨t.result, retryDelay rand base maxd i :: t.sleeps, t.calls + 1⟩

/-- `retry` (`src/core/utils.py`). -/
def retry {E V : Type} (fn : Nat → Except E V) (rand : Nat → ℚ)
    (attempts : Nat) (base maxd : ℚ) : RetryTrace E V :=
  retryLoop fn rand base maxd 0 attempts

/-! ### Retry lemmas -/

lemma retryLoop_success {E V : Type} (fn : Nat → Except E V) (rand : Nat → ℚ)
    (base maxd : ℚ) (v : V) :
    ∀ (k i r : Nat), k < r →
      (∀ j, j < k → ∃ e, fn (i + j) = .error e) → fn (i + k) = .ok v →
      retryLoop fn rand base maxd i r =
        ⟨.ok v, (List.range k).map (fun j => retryDelay rand base maxd (i + j)), k + 1⟩ := by
  intro k
  induction k with
  | zero =>
      intro i r hr _ hok
      obtain ⟨r', rfl⟩ := Nat.exists_eq_succ_of_ne_zero (Nat.pos_iff_ne_zero.mp hr)
      simp only [Nat.add_zero] at hok
      simp [retryLoop, hok]
  | succ k ih =>
      intro i r hr hfail hok
      obtain ⟨r', rfl⟩ := Nat.exists_eq_succ_of_ne_zero
        (Nat.pos_iff_ne_zero.mp (Nat.lt_of_le_of_lt (Nat.zero_le _) hr))
      obtain ⟨e, he⟩ := hfail 0 (Nat.succ_pos k)
      simp only [Nat.add_zero] at he
      have hr' : k < r' := Nat.lt_of_succ_lt_succ hr
      have hfail' : ∀ j, j < k → ∃ e, fn (i + 1 + j) = .error e := by
        intro j hj
        have := hfail (j + 1) (Nat.succ_lt_succ hj)
        simpa [Nat.add_comm j 1, ← Nat.add_assoc] using this
      have hok' : fn (i + 1 + k) = .ok v := by
        have : i + 1 + k = i + (k + 1) := by omega
        rw [this]; exact hok
      have hne : r' ≠ 0 := Nat.pos_iff_ne_zero.mp (Nat.lt_of_le_of_lt (Nat.zero_le _) hr')
      have hsl : retryDelay rand base maxd i ::
            (List.range k).map (fun j => retryDelay rand base maxd (i + 1 + j)) =
          (List.range (k + 1)).map (fun j => retryDelay rand base maxd (i + j)) := by
        rw [List.range_succ_eq_map, List.map_cons, List.map_map]
        refine congrArg₂ List.cons (by simp) (List.map_congr_left ?_)
        intro j _
        simp only [Function.comp]
        congr 1
        omega
      rw [retryLoop, he]
      simp only [hne, if_false]
      rw [ih (i + 1) r' hr' hfail' hok']
      dsimp only
      rw [hsl]

lemma retryLoop_allfail {E V : Type} (fn : Nat → Except E V) (rand : Nat → ℚ)
    (base maxd : ℚ) (er : Nat → E) :
    ∀ (r i : Nat), 1 ≤ r →
      (∀ j, j < r → fn (i + j) = .error (er (i + j))) →
      retryLoop fn rand base maxd i r =
        ⟨.error (some (er (i + (r - 1)))),
          (List.range (r - 1)).map (fun j => retryDelay rand base maxd (i + j)), r⟩ := by
  intro r
  induction r with
  | zero => intro i h; omega
  | succ r' ih =>
      intro i _ hfail
      have he := hfail 0 (Nat.succ_pos r')
      simp only [Nat.add_zero] at he
      rw [retryLoop, he]
      by_cases hr0 : r' = 0
      · subst hr0; simp
      · simp only [hr0, if_false]
        have hfail' : ∀ j, j < r' → fn (i + 1 + j) = .error (er (i + 1 + j)) := by
          intro j hj
          have := hfail (j + 1) (Nat.succ_lt_succ hj)
          simpa [Nat.add_comm j 1, ← Nat.add_assoc] using this
        have hsl : retryDelay rand base maxd i ::
              (List.range (r' - 1)).map (fun j => retryDelay rand base maxd (i + 1 + j)) =
            (List.range r').map (fun j => retryDelay rand base maxd (i + j)) := by
          obtain ⟨r'', rfl⟩ := Nat.exists_eq_succ_of_ne_zero hr0
          simp only [Nat.succ_sub_one]
          rw [List.range_succ_eq_map, List.map_cons, List.map_map]
          refine congrArg₂ List.cons (by simp) (List.map_congr_left ?_)
          intro j _
          simp only [Function.comp]
          congr 1
          omega
        have h2 : i + 1 + (r' - 1) = i + r' := by omega
        rw [ih (i + 1) (Nat.one_le_iff_ne_zero.mpr hr0) hfail']
        dsimp only
        rw [h2, Nat.add_sub_cancel, hsl]

lemma retryLoop_calls_le {E V : Type} (fn : Nat → Except E V) (rand : Nat → ℚ)
    (base maxd : ℚ) : ∀ (r i : Nat), (retryLoop fn rand base maxd i r).calls ≤ r := by
  intro r
  induction r with
  | zero => intro i; simp [retryLoop]
  | succ r' ih =>
      intro i
      rw [retryLoop]
      cases hfn : fn i with
      | ok v => simp
      | error e =>
        by_cases hr0 : r' = 0
        · subst hr0; simp
        · simp only [hr0, if_false]
          exact Nat.succ_le_succ (ih (i + 1))

/-- C5: `retry` invokes the operation at most `n` times; if the first `k < n`
invocations fail and invocation `k+1` succeeds, it returns that value having
performed exactly `k` inter-attempt sleeps (none after the final attempt),
the `i`-th of duration `min(max_delay, base_delay * 2^i)` scaled by the
jitter factor `1 + random() * 0.25`, which lies in `[1, 1.25)` when the draw
lies in `[0, 1)`; if all `n` invocations fail, it re-raises the last observed
error. -/
theorem retry_policy_spec :
    (∀ (E V : Type) (fn : Nat → Except E V) (rand : Nat → ℚ) (base maxd : ℚ)
        (n k : Nat) (v : V), k < n →
        (∀ j, j < k → ∃ e, fn j = .error e) → fn k = .ok v →
        retry fn rand n base maxd =
          ⟨.ok v, (List.range k).map (retryDelay rand base maxd), k + 1⟩) ∧
    (∀ (E V : Type) (fn : Nat → Except E V) (rand : Nat → ℚ) (base maxd : ℚ)
        (n : Nat) (er : Nat → E), 1 ≤ n →
        (∀ j, j < n → fn j = .error (er j)) →
        retry fn rand n base maxd =
          ⟨.error (some (er (n - 1))),
            (List.range (n - 1)).map (retryDelay rand base maxd), n⟩) ∧
    (∀ (E V : Type) (fn : Nat → Except E V) (rand : Nat → ℚ) (base maxd : ℚ)
        (n : Nat), (retry fn rand n base maxd).calls ≤ n) ∧
    (∀ (rand : Nat → ℚ) (base maxd : ℚ) (i : Nat), 0 ≤ rand i → rand i < 1 →
        ∃ f, retryDelay rand base maxd i = min maxd (base * 2 ^ i) * f ∧
          1 ≤ f ∧ f < 5 / 4) := by
  refine ⟨?_, ?_, ?_, ?_⟩
  · intro E V fn rand base maxd n k v hk hfail hok
    have h := retryLoop_success fn rand base maxd v k 0 n hk
      (by intro j hj; simpa using hfail j hj) (by simpa using hok)
    rw [retry, h]
    simp only [Nat.zero_add]
  · intro E V fn rand base maxd n er hn hfail
    have h := retryLoop_allfail fn rand base maxd er n 0 hn
      (by intro j hj; simpa using hfail j hj)
    rw [retry, h]
    simp only [Nat.zero_add]
  · intro E V fn rand base maxd n
    exact retryLoop_calls_le fn rand base maxd n 0
  · intro rand base maxd i h0 h1
    refine ⟨1 + rand i * (1 / 4), rfl, by linarith, by linarith⟩

/-- A concrete operation failing twice then succeeding. -/
def retryFnEx : Nat → Except String String :=
  fun i => if i < 2 then .error "no" else .ok "ok"

/-- A concrete zero jitter stream. -/
def retryRandEx : Nat → ℚ := fun _ => 0

/-- Witness for C5: with `attempts = 3`, an operation failing twice then
succeeding returns the success value after exactly two sleeps and three
invocations. -/
theorem retry_policy_spec_witness :
    retry retryFnEx retryRandEx 3 (2 / 5) (5 / 2) =
      ⟨.ok "ok", (List.range 2).map (retryDelay retryRandEx (2 / 5) (5 / 2)), 2 + 1⟩ :=
  retry_policy_spec.1 String String retryFnEx retryRandEx (2 / 5) (5 / 2) 3 2 "ok"
    (by norm_num)
    (fun j hj => ⟨"no", by simp only [retryFnEx, if_pos hj]⟩)
    (by norm_num [retryFnEx])

/-! ## Router theorems -/

/-- C3: `route` dispatches by first-match order — registered intent first
(consulting no content heuristic), then the source/citation heuristic to
retrieval when a retrieval provider is registered, then the
`net:`/`search:` last-message prefix to search, else chat.  Steps 3 and 4
apply whenever step 2's conjunction fails: either no message matches the
source/citation heuristic, or no retrieval provider is registered. -/
theorem route_dispatch_order :
    (∀ (ps : Providers) (t : Task) (p : Task → ProviderResult),
        ps t.intent = some p → route ps t = .ok (p t)) ∧
    (∀ (ps : Providers) (t : Task) (p : Task → ProviderResult),
        ps t.intent = Option.none → wantSources t = true →
        ps Capability.rag = some p → route ps t = .ok (p t)) ∧
    (∀ (ps : Providers) (t : Task) (p : Task → ProviderResult) (m : Message),
        ps t.intent = Option.none →
        (wantSources t = false ∨ ps Capability.rag = Option.none) →
        t.messages.getLast? = some m → lastTriggersSearch m = true →
        ps Capability.search = some p → route ps t = .ok (p t)) ∧
    (∀ (ps : Providers) (t : Task) (p : Task → ProviderResult) (m : Message),
        ps t.intent = Option.none →
        (wantSources t = false ∨ ps Capability.rag = Option.none) →
        t.messages.getLast? = some m →
        (lastTriggersSearch m = false ∨ ps Capability.search = Option.none) →
        ps Capability.chat = some p → route ps t = .ok (p t)) := by
  refine ⟨?_, ?_, ?_, ?_⟩
  · intro ps t p h
    simp [route, h]
  · intro ps t p h1 h2 h3
    simp [route, h1, h2, h3]
  · intro ps t p m h1 h2 h3 h4 h5
    rcases h2 with h2 | h2
    · simp [route, h1, h2, h3, h4, h5]
    · rcases Bool.eq_false_or_eq_true (wantSources t) with hws | hws <;>
        simp [route, h1, hws, h3, h4, h5] <;> rw [h2]
  · intro ps t p m h1 h2 h3 h4 h5
    rcases h2 with h2 | h2
    · rcases h4 with h4 | h4
      · simp [route, h1, h2, h3, h4, h5]
      · by_cases h6 : lastTriggersSearch m
        · simp [route, h1, h2, h3, h4, h5, h6]
        · simp [route, h1, h2, h3, h5, h6]
    · rcases h4 with h4 | h4
      · rcases Bool.eq_false_or_eq_true (wantSources t) with hws | hws <;>
          simp [route, h1, hws, h3, h4, h5] <;> rw [h2]
      · by_cases h6 : lastTriggersSearch m
        · rcases Bool.eq_false_or_eq_true (wantSources t) with hws | hws <;>
            simp [route, h1, hws, h3, h4, h5, h6] <;> rw [h2]
        · rcases Bool.eq_false_or_eq_true (wantSources t) with hws | hws <;>
            simp [route, h1, hws, h3, h5, h6] <;> rw [h2]

/-- A chat-only provider registry for the routing witnesses. -/
def resOkEx : ProviderResult := { ok := true, text := "ok" }

/-- A registry holding only a chat provider. -/
def psChatOnly : Providers := fun c =>
  match c with
  | Capability.chat => some (fun _ => resOkEx)
  | _ => Option.none

/-- A chat-intent task. -/
def taskChatEx : Task := { intent := Capability.chat, messages := [⟨"user", "hi"⟩] }

/-- Witness for C3: a chat-intent task with a registered chat provider is
dispatched to it. -/
theorem route_dispatch_order_witness :
    route psChatOnly taskChatEx = .ok resOkEx :=
  route_dispatch_order.1 psChatOnly taskChatEx (fun _ => resOkEx) rfl

/-- C10: on a task whose intent has no registered provider and whose message
list is empty, `route` raises `IndexError` reading the last message instead
of returning a result; a registered intent dispatches regardless of the
message list. -/
theorem route_total_only_nonempty :
    (∀ (ps : Providers) (t : Task), ps t.intent = Option.none →
        t.messages = [] → route ps t = .error .indexError) ∧
    (∀ (ps : Providers) (t : Task) (p : Task → ProviderResult),
        ps t.intent = some p → route ps t = .ok (p t)) := by
  constructor
  · intro ps t h1 h2
    simp [route, h1, h2, wantSources]
  · intro ps t p h
    simp [route, h]

/-- A registry with no providers at all. -/
def psEmptyReg : Providers := fun _ => Option.none

/-- A task with an empty message list. -/
def taskNoMsgs : Task := { intent := Capability.solve, messages := [] }

/-- Witness for C10: with no registered provider for the intent and an empty
message list, `route` raises `IndexError`. -/
theorem route_total_only_nonempty_witness :
    route psEmptyReg taskNoMsgs = .error .indexError :=
  route_total_only_nonempty.1 psEmptyReg taskNoMsgs rfl rfl

/-! ## SHA-256 (`hashlib.sha256(...).hexdigest()` used by `src/core/cache.py`)

A direct implementation of FIPS 180-4 SHA-256 over byte lists, with 32-bit
words as naturals reduced modulo `2^32`.  Strings are UTF-8 encoded first,
as in `s.encode("utf-8")`. -/

namespace Sha256

/-- Reduce to a 32-bit word. -/
def w32 (n : Nat) : Nat := n % 4294967296

/-- Right rotation of a 32-bit word by `k` places (`x` assumed `< 2^32`,
`0 < k < 32`): the low `k` bits wrap around to the top. -/
def rotr (x k : Nat) : Nat := x % 2 ^ k * 2 ^ (32 - k) + x / 2 ^ k

/-- Bitwise complement of a 32-bit word. -/
def compl32 (x : Nat) : Nat := 4294967295 - x

/-- The choose function of the compression round. -/
def chooseBits (e f g : Nat) : Nat := (compl32 e &&& g) ^^^ (e &&& f)

/-- The majority function of the compression round. -/
def majority (a b c : Nat) : Nat := (a &&& b) ^^^ ((a &&& c) ^^^ (b &&& c))

/-- Upper-case sigma 0. -/
def sum0 (x : Nat) : Nat := rotr x 2 ^^^ (rotr x 13 ^^^ rotr x 22)

/-- Upper-case sigma 1. -/
def sum1 (x : Nat) : Nat := rotr x 6 ^^^ (rotr x 11 ^^^ rotr x 25)

/-- Lower-case sigma 0. -/
def sig0 (x : Nat) : Nat := (x / 2 ^ 3) ^^^ (rotr x 7 ^^^ rotr x 18)

/-- Lower-case sigma 1. -/
def sig1 (x : Nat) : Nat := (x / 2 ^ 10) ^^^ (rotr x 17 ^^^ rotr x 19)

/-- The 64 round constants, in decimal. -/
def K : List Nat :=
  [1116352408, 1899447441, 3049323471, 3921009573,
   961987163, 1508970993, 2453635748, 2870763221,
   3624381080, 310598401, 607225278, 1426881987,
   1925078388, 2162078206, 2614888103, 3248222580,
   3835390401, 4022224774, 264347078, 604807628,
   770255983, 1249150122, 1555081692, 1996064986,
   2554220882, 2821834349, 2952996808, 3210313671,
   3336571891, 3584528711, 113926993, 338241895,
   666307205, 773529912, 1294757372, 1396182291,
   1695183700, 1986661051, 2177026350, 2456956037,
   2730485921, 2820302411, 3259730800, 3345764771,
   3516065817, 3600352804, 4094571909, 275423344,
   430227734, 506948616, 659060556, 883997877,
   958139571, 1322822218, 1537002063, 1747873779,
   1955562222, 2024104815, 2227730452, 2361852424,
   2428436474, 2756734187, 3204031479, 3329325298]

/-- Big-endian 8-byte encoding of the bit length. -/
def be64 (n : Nat) : List Nat :=
  [n / 2 ^ 56 % 256, n / 2 ^ 48 % 256, n / 2 ^ 40 % 256, n / 2 ^ 32 % 256,
   n / 2 ^ 24 % 256, n / 2 ^ 16 % 256, n / 2 ^ 8 % 256, n % 256]

/-- Message padding: a `0x80` byte, zeros to 56 mod 64, then the 64-bit bit
length. -/
def pad (msg : List Nat) : List Nat :=
  let z := (119 - msg.length % 64) % 64
  msg ++ 128 :: List.replicate z 0 ++ be64 (msg.length * 8)

/-- Split into 64-byte blocks (fuel-driven so the kernel can evaluate it). -/
def chunksGo : Nat → List Nat → List (List Nat)
  | 0, _ => []
  | _, [] => []
  | fuel + 1, l => l.take 64 :: chunksGo fuel (l.drop 64)

/-- Split a padded message into 64-byte blocks. -/
def chunks64 (l : List Nat) : List (List Nat) := chunksGo l.length l

/-- Combine bytes into big-endian 32-bit words. -/
def bytesToWords : List Nat → List Nat
  | b0 :: b1 :: b2 :: b3 :: rest =>
      (((b0 * 256 + b1) * 256 + b2) * 256 + b3) :: bytesToWords rest
  | _ => []

/-- Extend a 16-word schedule to 64 words. -/
def extendW (w : List Nat) : Nat → List Nat
  | 0 => w
  | k + 1 =>
      let n := w.length
      let wt := w32 (sig1 (w.getD (n - 2) 0) + w.getD (n - 7) 0 +
        sig0 (w.getD (n - 15) 0) + w.getD (n - 16) 0)
      extendW (w ++ [wt]) k

/-- The eight-word working state. -/
structure St where
  a : Nat
  b : Nat
  c : Nat
  d : Nat
  e : Nat
  f : Nat
  g : Nat
  h : Nat

/-- One compression round. -/
def round (s : St) (kw : Nat × Nat) : St :=
  let t1 := w32 (s.h + sum1 s.e + chooseBits s.e s.f s.g + kw.1 + kw.2)
  let t2 := w32 (sum0 s.a + majority s.a s.b s.c)
  ⟨w32 (t1 + t2), s.a, s.b, s.c, w32 (s.d + t1), s.e, s.f, s.g⟩

/-- Process one 64-byte block against the running hash. -/
def processBlock (hs : St) (block : List Nat) : St :=
  let w := extendW (bytesToWords block) 48
  let s := (K.zip w).foldl round hs
  ⟨w32 (hs.a + s.a), w32 (hs.b + s.b), w32 (hs.c + s.c), w32 (hs.d + s.d),
   w32 (hs.e + s.e), w32 (hs.f + s.f), w32 (hs.g + s.g), w32 (hs.h + s.h)⟩

/-- Initial hash value, in decimal. -/
def H0 : St :=
  ⟨1779033703, 3144134277, 1013904242, 2773480762,
   1359893119, 2600822924, 528734635, 1541459225⟩

/-- Big-endian bytes of a 32-bit word. -/
def wordBytes (n : Nat) : List Nat :=
  [n / 2 ^ 24 % 256, n / 2 ^ 16 % 256, n / 2 ^ 8 % 256, n % 256]

/-- SHA-256 digest (32 bytes) of a byte list. -/
def digest (msg : List Nat) : List Nat :=
  let s := (chunks64 (pad msg)).foldl processBlock H0
  wordBytes s.a ++ wordBytes s.b ++ wordBytes s.c ++ wordBytes s.d ++
    wordBytes s.e ++ wordBytes s.f ++ wordBytes s.g ++ wordBytes s.h

/-- Lower-case hex digit. -/
def hexDigit (n : Nat) : Char :=
  if n < 10 then Char.ofNat (48 + n) else Char.ofNat (87 + n)

/-- Two-digit hex encoding of a byte. -/
def byteHex (b : Nat) : List Char := [hexDigit (b / 16), hexDigit (b % 16)]

/-- UTF-8 encoding of a character. -/
def utf8Char (c : Char) : List Nat :=
  let n := c.toNat
  if n < 128 then [n]
  else if n < 2048 then [192 + n / 64, 128 + n % 64]
  else if n < 65536 then [224 + n / 4096, 128 + n / 64 % 64, 128 + n % 64]
  else [240 + n / 262144, 128 + n / 4096 % 64, 128 + n / 64 % 64, 128 + n % 64]

/-- `s.encode("utf-8")`. -/
def utf8Bytes (s : String) : List Nat := (s.data.map utf8Char).flatten

/-- `hashlib.sha256(s.encode("utf-8")).hexdigest()`. -/
def hexdigest (s : String) : String := ⟨((digest (utf8Bytes s)).map byteHex).flatten⟩

end Sha256

/-! ## Content cache (`src/core/cache.py`)

The sqlite `kv` table is modelled as an association list from the hashed key
to the stored value; `REPLACE INTO` removes any previous row with the same
key and inserts the new one.  `set_` stores `json.dumps(value)` in a TEXT
column and `get` returns `json.loads` of it; since that serialisation is
inverted on the way out, the store is modelled as holding the JSON value
itself. -/

namespace Cache

/-- `_hash`: SHA-256 hex digest of the UTF-8 encoded key. -/
def hashKey (s : String) : String := Sha256.hexdigest s

/-- The `kv` table: hashed key to stored JSON value. -/
def State : Type := List (String × PyVal)

/-- The empty store (fresh database). -/
def empty : State := []

/-- `get(key)`: look the hashed key up. -/
def get (key : String) (st : State) : Option PyVal := st.lookup (hashKey key)

/-- `set_(key, value)`: `REPLACE INTO kv` under the hashed key. -/
def set_ (key : String) (v : PyVal) (st : State) : State :=
  (hashKey key, v) :: st.filter (fun p => p.1 != hashKey key)

end Cache

/-! ## `json.dumps` and Python rendering of payload values

`json.dumps(..., ensure_ascii=False)` with optional `sort_keys=True` and
optional `indent=2`, over `PyVal`.  The recursions are fuel-driven (fuel
`sizeOf v` always suffices) so the kernel can evaluate them. -/

/-- JSON string escaping (`ensure_ascii=False`: non-ASCII passes through). -/
def escapeJsonChar (c : Char) : List Char :=
  if c = '\\' then ['\\', '\\']
  else if c = '"' then ['\\', '"']
  else if c.toNat ≥ 32 then [c]
  else if c = '\n' then ['\\', 'n']
  else if c = '\t' then ['\\', 't']
  else if c = '\r' then ['\\', 'r']
  else if c.toNat = 8 then ['\\', 'b']
  else if c.toNat = 12 then ['\\', 'f']
  else ['\\', 'u', '0', '0', Sha256.hexDigit (c.toNat / 16), Sha256.hexDigit (c.toNat % 16)]

/-- Escape a JSON string body. -/
def escapeJson (s : String) : String := ⟨(s.data.map escapeJsonChar).flatten⟩

/-- Insert into a key-sorted association list (stable; the payload dicts in
scope have unique keys). -/
def insertByKey (p : String × PyVal) : List (String × PyVal) → List (String × PyVal)
  | [] => [p]
  | q :: rest => if p.1 ≤ q.1 then p :: q :: rest else q :: insertByKey p rest

/-- `sorted(kvs)` by key, for `sort_keys=True`. -/
def sortByKey : List (String × PyVal) → List (String × PyVal)
  | [] => []
  | p :: rest => insertByKey p (sortByKey rest)

/-- Comma-space join, the default `json.dumps` item separator. -/
def joinComma (xs : List String) : String := String.intercalate ", " xs

mutual

/-- Size of a payload value, used as recursion fuel by the serialisers. -/
def pySize : PyVal → Nat
  | .none => 1
  | .bool _ => 1
  | .int _ => 1
  | .str _ => 1
  | .list xs => 1 + pySizeList xs
  | .dict kvs => 1 + pySizeDict kvs

/-- Size of a list of payload values. -/
def pySizeList : List PyVal → Nat
  | [] => 0
  | v :: rest => 1 + pySize v + pySizeList rest

/-- Size of a dict body. -/
def pySizeDict : List (String × PyVal) → Nat
  | [] => 0
  | p :: rest => 1 + pySize p.2 + pySizeDict rest

end

/-- `json.dumps(v, ensure_ascii=False, sort_keys=sk)` (fuel-driven). -/
def dumpValF (sk : Bool) : Nat → PyVal → String
  | 0, _ => ""
  | fuel + 1, v =>
    match v with
    | .none => "null"
    | .bool true => "true"
    | .bool false => "false"
    | .int n => toString n
    | .str s => "\"" ++ escapeJson s ++ "\""
    | .list xs => "[" ++ joinComma (xs.map (dumpValF sk fuel)) ++ "]"
    | .dict kvs =>
        let kvs' := if sk then sortByKey kvs else kvs
        "\x7b" ++
          joinComma (kvs'.map fun p =>
            "\"" ++ escapeJson p.1 ++ "\": " ++ dumpValF sk fuel p.2) ++
          "\x7d"

/-- `json.dumps(v, ensure_ascii=False, sort_keys=sk)`. -/
def dumps (sk : Bool) (v : PyVal) : String := dumpValF sk (pySize v) v

/-- Newline plus `2 * lvl` spaces, the `indent=2` separator. -/
def nlIndent (lvl : Nat) : String := "\n" ++ String.mk (List.replicate (lvl * 2) ' ')

/-- `json.dumps(v, ensure_ascii=False, indent=2)` (fuel-driven). -/
def dumpIndF : Nat → Nat → PyVal → String
  | 0, _, _ => ""
  | fuel + 1, lvl, v =>
    match v with
    | .none => "null"
    | .bool true => "true"
    | .bool false => "false"
    | .int n => toString n
    | .str s => "\"" ++ escapeJson s ++ "\""
    | .list [] => "[]"
    | .list xs =>
        "[" ++ nlIndent (lvl + 1) ++
          String.intercalate ("," ++ nlIndent (lvl + 1)) (xs.map (dumpIndF fuel (lvl + 1))) ++
          nlIndent lvl ++ "]"
    | .dict [] => "\x7b\x7d"
    | .dict kvs =>
        "\x7b" ++ nlIndent (lvl + 1) ++
          String.intercalate ("," ++ nlIndent (lvl + 1)) (kvs.map fun p =>
            "\"" ++ escapeJson p.1 ++ "\": " ++ dumpIndF fuel (lvl + 1) p.2) ++
          nlIndent lvl ++ "\x7d"

/-- `json.dumps(v, ensure_ascii=False, indent=2)`. -/
def dumpsIndent2 (v : PyVal) : String := dumpIndF (pySize v) 0 v

/-- Escaping inside Python `repr` of a string (single-quoted). -/
def pyReprChar (c : Char) : List Char :=
  if c = '\\' then ['\\', '\\']
  else if c = '\'' then ['\\', '\'']
  else if c = '\n' then ['\\', 'n']
  else if c = '\r' then ['\\', 'r']
  else if c = '\t' then ['\\', 't']
  else [c]

/-- Python `repr` of a value (fuel-driven); containers render their elements
with `repr`, as Python does. -/
def pyReprF : Nat → PyVal → String
  | 0, _ => ""
  | fuel + 1, v =>
    match v with
    | .none => "None"
    | .bool true => "True"
    | .bool false => "False"
    | .int n => toString n
    | .str s => "'" ++ String.mk ((s.data.map pyReprChar).flatten) ++ "'"
    | .list xs => "[" ++ joinComma (xs.map (pyReprF fuel)) ++ "]"
    | .dict kvs =>
        "\x7b" ++
          joinComma (kvs.map fun p => "'" ++ p.1 ++ "': " ++ pyReprF fuel p.2) ++
          "\x7d"

/-- Python `str(v)` as used by f-strings: strings verbatim, scalars by their
Python rendering, containers by `repr`. -/
def pyStr (v : PyVal) : String :=
  match v with
  | .str s => s
  | .none => "None"
  | .bool true => "True"
  | .bool false => "False"
  | .int n => toString n
  | _ => pyReprF (pySize v) v

/-! ## Solver provider (`src/providers/hrm.py`)

The upstream HTTP interaction (`retry(call)`, `raise_for_status`,
`response.json()`) is abstracted as one oracle `Except PyErr PyVal`: the
parsed JSON payload on success, the raised exception otherwise.  The wall
clock contribution to `Usage` is an explicit `lat` argument.  The outcome
carries the result (in `Except`, since the cache-hit path renders outside
any `try`), the cache state after the call, and whether the upstream call
ran. -/

/-- `_flatten_messages`. -/
def flattenMessages (t : Task) : String :=
  String.intercalate "\n\n" (t.messages.map fun m =>
    "[" ++ pyCapitalize m.role ++ "] " ++ m.content.trim)

/-- `data.get(field)` on a dict, with `None` default. -/
def dictGet (kvs : List (String × PyVal)) (k : String) : PyVal :=
  match kvs.lookup k with
  | some v => v
  | Option.none => .none

/-- The priority-ordered candidate answer fields of `_summarise_payload`. -/
def preferredFields : List String :=
  ["answer", "final_answer", "solution", "response", "output", "text"]

/-- One preferred-field section: present when the field holds a string whose
strip is non-empty. -/
def fieldSection (kvs : List (String × PyVal)) (field : String) : Option String :=
  match dictGet kvs field with
  | .str s =>
      if s.trim ≠ "" then
        some ("**" ++ pyTitle (underscoreToSpace field) ++ "**\n" ++ s.trim)
      else Option.none
  | _ => Option.none

/-- `_format_iterable`. -/
def formatIterable (items : List PyVal) : String :=
  String.intercalate "\n" (items.map fun it =>
    match it with
    | .dict kvs => "- " ++ dumps false (.dict kvs)
    | _ => "- " ++ pyStr it)

/-- One list-valued section (`steps`/`plan`/`insights`): present when the
field holds a non-empty list. -/
def listSection (kvs : List (String × PyVal)) (field title : String) : Option String :=
  match dictGet kvs field with
  | .list [] => Option.none
  | .list items => some ("**" ++ title ++ "**\n" ++ formatIterable items)
  | _ => Option.none

/-- `_summarise_payload`. -/
def summarisePayload (kvs : List (String × PyVal)) : String :=
  let sections :=
    preferredFields.filterMap (fieldSection kvs) ++
    (listSection kvs "steps" "Steps").toList ++
    (listSection kvs "plan" "Plan").toList ++
    (listSection kvs "insights" "Insights").toList
  match sections with
  | [] => "```json\n" ++ dumpsIndent2 (.dict kvs) ++ "\n```"
  | _ => String.intercalate "\n\n" sections

/-- The `hrm` settings model of `settings.py` (`HrmCfg`), exactly as the
source defines it: `url`, `health_path`, `solve_path`, `timeout_s` and
`enforce_fenced_block` — and nothing else.  In particular it defines no
`default_task` or `default_strategy` field. -/
structure HrmCfg where
  url : String := "http://127.0.0.1:8008"
  health_path : String := "/health"
  solve_path : String := "/solve"
  timeout_s : ℚ := 20
  enforce_fenced_block : Bool := false

/-- The attribute read `SETTINGS.hrm.default_task` performed by
`HrmProvider.invoke`: `HrmCfg` defines no such field, so on any settings
object the access raises `AttributeError`. -/
def hrmDefaultTask (_cfg : HrmCfg) : Except PyErr PyVal :=
  .error (.exc "'HrmCfg' object has no attribute 'default_task'")

/-- The attribute read `SETTINGS.hrm.default_strategy`: likewise undefined
on `HrmCfg`, so the access raises `AttributeError`. -/
def hrmDefaultStrategy (_cfg : HrmCfg) : Except PyErr PyVal :=
  .error (.exc "'HrmCfg' object has no attribute 'default_strategy'")

/-- The `payload` dict built by `HrmProvider.invoke`, in insertion order, as
a function of the values `dt`/`ds` the two settings reads would produce. -/
def hrmPayload (dt ds : PyVal) (t : Task) : List (String × PyVal) :=
  let prompt := flattenMessages t
  let hrmTask := pyStr (paramGetD t "hrm_task" dt)
  let strategy := paramGetD t "strategy" ds
  let base : List (String × PyVal) :=
    [("prompt", .str prompt), ("task", .str hrmTask),
     ("metadata", .dict
       [("locale", .str t.locale), ("tz", .str t.tz),
        ("tags", .list (t.user_tags.map PyVal.str))])]
  match strategy with
  | .str s => if s ≠ "" then base ++ [("strategy", .str s)] else base
  | _ => base

/-- `cache_key = f"hrm:{json.dumps(payload, ensure_ascii=False, sort_keys=True)}"`. -/
def hrmCacheKey (dt ds : PyVal) (t : Task) : String :=
  "hrm:" ++ dumps true (.dict (hrmPayload dt ds t))

/-- The outcome of one `HrmProvider.invoke`: the returned result or the
escaped exception, the cache state afterwards, and whether the upstream
solve call was attempted. -/
structure HrmOutcome where
  result : Except PyErr ProviderResult
  cache : Cache.State
  calledUpstream : Bool

/-- The cache-miss path of `HrmProvider.invoke`: call upstream through the
retry executor inside a catch-all `try`; on success store the payload, then
render (a render failure is likewise caught); on failure return the
`ok=false` result. -/
def hrmMiss (cache : Cache.State) (key : String) (up : Except PyErr PyVal)
    (lat : Nat) : HrmOutcome :=
  match up with
  | .error e =>
      ⟨.ok { ok := false, text := "HRM request failed.", warnings := [pyErrStr e] },
        cache, true⟩
  | .ok data =>
      let cache2 := Cache.set_ key data cache
      match data with
      | .dict kvs =>
          ⟨.ok { ok := true, text := "# HRM Result\n\n" ++ summarisePayload kvs,
                 data := data, usage := { latency_ms := lat } }, cache2, true⟩
      | _ =>
          ⟨.ok { ok := false, text := "HRM request failed.",
                 warnings := ["AttributeError: object has no attribute get"] },
            cache2, true⟩

/-- The tail of `HrmProvider.invoke` below the two settings reads (hrm.py
builds the payload, computes the cache key, returns the cached render on a
truthy cache hit — no upstream call, the `"cached"` warning — and otherwise
runs the miss path), as a function of the values `dt`/`ds` the reads would
produce.  In the shipped program this code is unreachable, because both
reads raise (`hrmDefaultTask`/`hrmDefaultStrategy`). -/
def hrmInvokeAfterSettings (dt ds : PyVal) (cache : Cache.State)
    (up : Except PyErr PyVal) (lat : Nat) (t : Task) : HrmOutcome :=
  let key := hrmCacheKey dt ds t
  match Cache.get key cache with
  | some v =>
      if pyTruthy v then
        match v with
        | .dict kvs =>
            ⟨.ok { ok := true,
                   text := "# HRM Result (cached)\n\n" ++ summarisePayload kvs,
                   data := v, warnings := ["cached"],
                   usage := { latency_ms := lat } }, cache, false⟩
        | _ => ⟨.error (.exc "AttributeError: object has no attribute get"), cache, false⟩
      else hrmMiss cache key up lat
  | Option.none => hrmMiss cache key up lat

/-- `HrmProvider.invoke`: flatten the messages, then evaluate
`task.params.get("hrm_task", SETTINGS.hrm.default_task)` and
`task.params.get("strategy", SETTINGS.hrm.default_strategy)` — Python
evaluates the default arguments eagerly, so the undefined attribute reads
raise `AttributeError` on every call, before the cache key is computed and
before any cache or network access.  The exception propagates: those lines
precede the `try`. -/
def hrmInvoke (cfg : HrmCfg) (cache : Cache.State) (up : Except PyErr PyVal)
    (lat : Nat) (t : Task) : HrmOutcome :=
  let _prompt := flattenMessages t
  match hrmDefaultTask cfg with
  | .error e => ⟨.error e, cache, false⟩
  | .ok dt =>
      match hrmDefaultStrategy cfg with
      | .error e => ⟨.error e, cache, false⟩
      | .ok ds => hrmInvokeAfterSettings dt ds cache up lat t

/-! ## Chat providers (`src/providers/llm.py`, `src/providers/llm_openai.py`)

The upstream completion attempt is an oracle: for the local provider, a map
from the model identifier to the extracted completion content or the raised
exception (timeout, non-2xx, malformed payload all collapse to the raised
exception, as the source's catch-all sees them). -/

/-- The settings slice `LlmProvider` reads. -/
structure LlmSettings where
  url : String := "http://127.0.0.1:11434"
  primary_model : String := "qwen2.5:14b"
  fallback_model : String := "qwen2.5:7b"
  timeout_s : ℚ := 60

/-- `LlmProvider.invoke`: try the primary model, fall back once to the
secondary, convert a double failure into the remediation result whose
warning carries the last error string (or the bare `"LLM failed"` when that
string is empty — Python string truthiness on `str(exc)`). -/
def llmInvoke (st : LlmSettings) (call : String → Except PyErr String)
    (lat : Nat) (_t : Task) : ProviderResult :=
  match call st.primary_model with
  | .ok content => { ok := true, text := content, usage := { latency_ms := lat } }
  | .error _ =>
    match call st.fallback_model with
    | .ok content => { ok := true, text := content, usage := { latency_ms := lat } }
    | .error e2 =>
        { ok := false, text := "LLM not reachable. Start Ollama and pull models.",
          warnings := [if pyErrStr e2 ≠ "" then "LLM failed: " ++ pyErrStr e2
            else "LLM failed"] }

/-- `OpenAiLlmProvider.invoke`: a missing API key short-circuits (note: with
no warning); otherwise the guarded call either succeeds or becomes the
`ok=false` result carrying the error. -/
def openaiInvoke (apiKey : String) (call : Except PyErr String) (lat : Nat)
    (_t : Task) : ProviderResult :=
  if apiKey = "" then { ok := false, text := "Set OPENAI_API_KEY in .env.local." }
  else
    match call with
    | .ok content => { ok := true, text := content, usage := { latency_ms := lat } }
    | .error e => { ok := false, text := "OpenAI call failed.", warnings := [pyErrStr e] }

/-! ## Speech stubs (`src/providers/stt.py`, `src/providers/tts.py`) -/

/-- `SttProvider.invoke`. -/
def sttInvoke (_t : Task) : ProviderResult :=
  { ok := true, text := "(STT stub — install faster-whisper to transcribe.)" }

/-- `TtsProvider.invoke`. -/
def ttsInvoke (_t : Task) : ProviderResult :=
  { ok := true, text := "(TTS stub — install piper-tts to synthesize.)" }

/-! ## Web-search provider (`src/providers/websearch.py`)

The backend call (`_tavily`/`_serpapi`) is an oracle producing the citation
list or the raised exception.  Reading the last message and coercing the
`k` parameter happen before the `try`, so their exceptions propagate. -/

/-- The settings slice `WebSearchProvider` reads. -/
structure SearchSettings where
  enabled : Bool := false
  provider : String := "tavily"
  max_results : Int := 5
  timeout_s : ℚ := 12

/-- `"Top results:"` rendering (f-string prints an absent snippet as `None`). -/
def wsRenderText (cs : List Citation) : String :=
  "Top results:\n" ++ String.intercalate "\n" (cs.map fun c =>
    "- " ++ c.source ++ ": " ++
      (match c.snippet with | some s => s | Option.none => "None"))

/-- The guarded tail of `WebSearchProvider.invoke`: the backend call either
renders or becomes the `ok=false` "Search failed." result. -/
def wsFinish (search : Except PyErr (List Citation)) (lat : Nat) :
    Except PyErr ProviderResult :=
  match search with
  | .ok cs =>
      .ok { ok := true, text := wsRenderText cs, citations := cs,
            usage := { latency_ms := lat } }
  | .error e => .ok { ok := false, text := "Search failed.", warnings := [pyErrStr e] }

/-- `WebSearchProvider.invoke`. -/
def websearchInvoke (st : SearchSettings) (tavilyKey serpKey : String)
    (search : Except PyErr (List Citation)) (lat : Nat) (t : Task) :
    Except PyErr ProviderResult :=
  if st.enabled = false then
    .ok { ok := false, text := "Search disabled. Enable in config.",
          warnings := ["search_disabled"] }
  else
    match t.messages.getLast? with
    | Option.none => .error .indexError
    | some _query =>
      match pyToInt (paramGetD t "k" (.int st.max_results)) with
      | .error e => .error e
      | .ok _k =>
        if st.provider = "tavily" then
          if tavilyKey = "" then .ok { ok := false, text := "Missing TAVILY_API_KEY." }
          else wsFinish search lat
        else if st.provider = "serpapi" then
          if serpKey = "" then .ok { ok := false, text := "Missing SERPAPI_API_KEY." }
          else wsFinish search lat
        else .ok { ok := false, text := "Unknown search provider." }

/-! ## Retrieval provider (`src/providers/rag.py`)

The persisted vector index is abstracted at the library boundary: the dense
query result is a list of aligned (id, document, source metadata, distance)
rows, the corpus document count is the `coll.count()` value, and the BM25
scores are an oracle from document index to score.  Everything from those
boundaries on — citation construction, the corpus-size guard, fusion,
deduplication, truncation and composition — is translated from the
source. -/

/-- The settings slice `RagProvider` reads. -/
structure RagSettings where
  collection : String := "main"
  k : Int := 5
  bm25_min_docs : Nat := 20

/-- One aligned row of the chroma query result. -/
structure DenseItem where
  id : String
  doc : String
  sourceMeta : Option String
  dist : Option ℚ

/-- `_dense`: citations from the dense query result (snippet is the first
400 characters, source falls back to the document id). -/
def denseCitations (items : List DenseItem) : List Citation :=
  items.map fun it =>
    { source := match it.sourceMeta with | some s => s | Option.none => it.id,
      snippet := some (strTake it.doc 400),
      score := it.dist }

/-- One `_bm25_docs` row. -/
structure BmDoc where
  id : String
  doc : String
  sourceMeta : Option String

/-- Descending-lexicographic insertion for `(score, idx)` pairs
(`sorted(..., reverse=True)`). -/
def insPairDesc (p : ℚ × Nat) : List (ℚ × Nat) → List (ℚ × Nat)
  | [] => [p]
  | q :: rest =>
      if p.1 > q.1 ∨ (p.1 = q.1 ∧ p.2 ≥ q.2) then p :: q :: rest
      else q :: insPairDesc p rest

/-- `sorted([(score, idx) ...], reverse=True)`. -/
def sortPairsDesc : List (ℚ × Nat) → List (ℚ × Nat)
  | [] => []
  | p :: rest => insPairDesc p (sortPairsDesc rest)

/-- `_bm25_top`: empty corpus short-circuits; otherwise score every document,
sort descending, take `k`, and build citations. -/
def bm25Top (scoreOf : Nat → ℚ) (docs : List BmDoc) (k : Int) : List Citation :=
  if docs.isEmpty then []
  else
    let scored := (List.range docs.length).map fun idx => (scoreOf idx, idx)
    let top := pySlice (sortPairsDesc scored) k
    top.map fun si =>
      let d := docs.getD si.2 ⟨"", "", Option.none⟩
      { source := match d.sourceMeta with | some s => s | Option.none => d.id,
        snippet := some (strTake d.doc 400), score := some si.1 }

/-- The dedup key: `(citation.source, citation.snippet[:120])`. -/
def fuseKey (c : Citation) : String × Option String :=
  (c.source, c.snippet.map fun s => strTake s 120)

/-- The `seen` insertion-ordered dict loop of `invoke`, as the list of
first-occurrence citations. -/
def fuseDedup : List Citation → List (String × Option String) → List Citation
  | [], _ => []
  | c :: rest, seen =>
      if fuseKey c ∈ seen then fuseDedup rest seen
      else c :: fuseDedup rest (fuseKey c :: seen)

/-- Specification-side deduplication: keep each citation whose key has not
been kept before, preserving first-seen order. -/
def dedupFirstSeen (cs : List Citation) : List Citation :=
  cs.foldl (fun acc c =>
    if acc.any (fun d => fuseKey d = fuseKey c) then acc else acc ++ [c]) []

/-- The outcome of one `RagProvider.invoke`, with the effect trace of which
search passes ran. -/
structure RagOutcome where
  result : ProviderResult
  denseRan : Bool
  lexicalRan : Bool

/-- `RagProvider.invoke`. -/
def ragInvoke (st : RagSettings) (items : List DenseItem) (count : Nat)
    (scoreOf : Nat → ℚ) (bmDocs : List BmDoc) (lat : Nat) (t : Task) :
    Except PyErr RagOutcome :=
  match t.messages.getLast? with
  | Option.none => .error .indexError
  | some _m =>
    match pyToInt (paramGetD t "k" (.int st.k)) with
    | .error e => .error e
    | .ok k =>
      let dense := denseCitations items
      let bm25 := if count ≥ st.bm25_min_docs then bm25Top scoreOf bmDocs k else []
      let fused := pySlice (fuseDedup (bm25 ++ dense) []) k
      let compose := pyTruthy (paramGetD t "compose" (.bool true))
      let text :=
        if compose then
          if fused.isEmpty then
            "Insufficient evidence. Here are sources to consult (index may be small)."
          else
            "Here are relevant passages:\n" ++
              String.intercalate "\n" (fused.map fun c =>
                "- " ++ c.source ++ ": " ++
                  (match c.snippet with | some s => s | Option.none => "None"))
        else ""
      .ok ⟨{ ok := true, text := text, citations := fused,
             usage := { latency_ms := lat } },
           true, decide (count ≥ st.bm25_min_docs)⟩

/-! ### Retrieval fusion lemmas and claim -/

/-- The `seen`-dict loop equals first-seen deduplication: generalised over
the accumulated output and the seen-key set. -/
lemma fuseDedup_go (cs : List Citation) :
    ∀ (acc : List Citation) (seen : List (String × Option String)),
      (∀ key, key ∈ seen ↔ ∃ d ∈ acc, fuseKey d = key) →
      acc ++ fuseDedup cs seen =
        cs.foldl (fun acc c =>
          if acc.any (fun d => fuseKey d = fuseKey c) then acc else acc ++ [c]) acc := by
  induction cs with
  | nil => intro acc seen _; simp [fuseDedup]
  | cons c rest ih =>
      intro acc seen hinv
      rw [List.foldl_cons]
      by_cases hmem : fuseKey c ∈ seen
      · have hany : acc.any (fun d => fuseKey d = fuseKey c) = true := by
          obtain ⟨d, hd, hk⟩ := (hinv (fuseKey c)).mp hmem
          exact List.any_eq_true.mpr ⟨d, hd, by simp [hk]⟩
        rw [fuseDedup, if_pos hmem, hany]
        simp only [if_true]
        exact ih acc seen hinv
      · have hany : acc.any (fun d => fuseKey d = fuseKey c) = false := by
          rw [List.any_eq_false]
          intro d hd hk
          exact hmem ((hinv (fuseKey c)).mpr ⟨d, hd, by simpa using hk⟩)
        have hinv' : ∀ key, key ∈ fuseKey c :: seen ↔
            ∃ d ∈ acc ++ [c], fuseKey d = key := by
          intro key
          constructor
          · intro hk
            rcases List.mem_cons.mp hk with rfl | hk
            · exact ⟨c, by simp⟩
            · obtain ⟨d, hd, hkey⟩ := (hinv key).mp hk
              exact ⟨d, by simp [hd], hkey⟩
          · rintro ⟨d, hd, hkey⟩
            rcases List.mem_append.mp hd with hd | hd
            · exact List.mem_cons.mpr (Or.inr ((hinv key).mpr ⟨d, hd, hkey⟩))
            · have : d = c := by simpa using hd
              subst this
              exact List.mem_cons.mpr (Or.inl hkey.symm)
        rw [fuseDedup, if_neg hmem, hany]
        simp only [Bool.false_eq_true, if_false]
        calc acc ++ c :: fuseDedup rest (fuseKey c :: seen)
            = (acc ++ [c]) ++ fuseDedup rest (fuseKey c :: seen) := by simp
          _ = _ := ih (acc ++ [c]) (fuseKey c :: seen) hinv'

/-- The fusion loop of `RagProvider.invoke` performs exactly first-seen
deduplication. -/
lemma fuseDedup_eq (cs : List Citation) : fuseDedup cs [] = dedupFirstSeen cs := by
  have h := fuseDedup_go cs [] [] (by intro key; simp)
  simpa [dedupFirstSeen] using h

/-- C7: on each retrieval query, the dense pass always runs; the lexical
pass runs only when the corpus count meets the configured minimum (else it
contributes the empty list); and the fused citation list is the lexical
results concatenated before the dense results, deduplicated first-seen by
`(source, first 120 snippet characters)` and truncated to `k`. -/
theorem rag_fusion_spec :
    ∀ (st : RagSettings) (items : List DenseItem) (count : Nat)
      (scoreOf : Nat → ℚ) (bmDocs : List BmDoc) (lat : Nat) (t : Task)
      (m : Message) (k : Int),
      t.messages.getLast? = some m →
      pyToInt (paramGetD t "k" (.int st.k)) = .ok k →
      ∃ out, ragInvoke st items count scoreOf bmDocs lat t = .ok out ∧
        out.denseRan = true ∧
        out.lexicalRan = decide (count ≥ st.bm25_min_docs) ∧
        out.result.citations =
          pySlice (dedupFirstSeen
            ((if count ≥ st.bm25_min_docs then bm25Top scoreOf bmDocs k else []) ++
              denseCitations items)) k := by
  intro st items count scoreOf bmDocs lat t m k h1 h2
  simp only [ragInvoke, h1, h2]
  exact ⟨_, rfl, rfl, rfl, by simp only [fuseDedup_eq]⟩

/-- Concrete retrieval settings for the fusion witness. -/
def ragStEx : RagSettings := {}

/-- A dense result overlapping the first lexical result (same source, same
snippet prefix). -/
def ragItemsEx : List DenseItem := [⟨"dx", "abc passage", some "S1", Option.none⟩]

/-- Two lexical corpus rows. -/
def ragBmDocsEx : List BmDoc :=
  [⟨"d1", "abc passage", some "S1"⟩, ⟨"d2", "xyz passage", some "S2"⟩]

/-- Lexical scores ranking document 0 first. -/
def ragScoreEx : Nat → ℚ := fun i => if i = 0 then 2 else 1

/-- A retrieval task. -/
def ragTaskEx : Task := { intent := Capability.rag, messages := [⟨"user", "Kuwait Vision sources"⟩] }

/-- Witness for C7: the concrete fused list on an above-threshold corpus. -/
theorem rag_fusion_spec_witness :
    ∃ out, ragInvoke ragStEx ragItemsEx 25 ragScoreEx ragBmDocsEx 0 ragTaskEx = .ok out ∧
      out.denseRan = true ∧
      out.lexicalRan = decide (25 ≥ ragStEx.bm25_min_docs) ∧
      out.result.citations =
        pySlice (dedupFirstSeen
          ((if 25 ≥ ragStEx.bm25_min_docs then bm25Top ragScoreEx ragBmDocsEx 5 else []) ++
            denseCitations ragItemsEx)) 5 :=
  rag_fusion_spec ragStEx ragItemsEx 25 ragScoreEx ragBmDocsEx 0 ragTaskEx
    ⟨"user", "Kuwait Vision sources"⟩ 5 rfl rfl

/-! ### Solver provider lemmas and claims -/

/-- A `REPLACE`d key is found again (no SHA evaluation needed: the stored row
head carries the same hashed key). -/
lemma cache_get_set_self (k : String) (v : PyVal) (st : Cache.State) :
    Cache.get k (Cache.set_ k v st) = some v := by
  simp [Cache.get, Cache.set_, List.lookup]

/-- Every `HrmProvider.invoke` raises `AttributeError` at the
`SETTINGS.hrm.default_task` read, leaving the cache untouched and making no
upstream call. -/
lemma hrmInvoke_attr_error (cfg : HrmCfg) (cache : Cache.State)
    (up : Except PyErr PyVal) (lat : Nat) (t : Task) :
    hrmInvoke cfg cache up lat t =
      ⟨.error (.exc "'HrmCfg' object has no attribute 'default_task'"),
        cache, false⟩ := rfl

/-- On a cache miss, the post-settings tail of `invoke` runs the miss path. -/
lemma hrmInvoke_miss (dt ds : PyVal) (cache : Cache.State)
    (up : Except PyErr PyVal) (lat : Nat) (t : Task)
    (h : Cache.get (hrmCacheKey dt ds t) cache = Option.none) :
    hrmInvokeAfterSettings dt ds cache up lat t =
      hrmMiss cache (hrmCacheKey dt ds t) up lat := by
  simp [hrmInvokeAfterSettings, h]

/-- On a truthy dict cache hit, the post-settings tail of `invoke` renders
the cached payload with the `(cached)` header and the `"cached"` warning,
touching neither the upstream service nor the cache. -/
lemma hrmInvoke_hit (dt ds : PyVal) (cache : Cache.State)
    (up : Except PyErr PyVal) (lat : Nat) (t : Task)
    (kvs : List (String × PyVal))
    (h : Cache.get (hrmCacheKey dt ds t) cache = some (.dict kvs)) (hne : kvs ≠ []) :
    hrmInvokeAfterSettings dt ds cache up lat t =
      ⟨.ok { ok := true, text := "# HRM Result (cached)\n\n" ++ summarisePayload kvs,
             data := .dict kvs, warnings := ["cached"],
             usage := { latency_ms := lat } }, cache, false⟩ := by
  have hne' : kvs.isEmpty = false := by
    cases kvs with
    | nil => exact absurd rfl hne
    | cons a l => rfl
  simp [hrmInvokeAfterSettings, h, pyTruthy, hne']

/-- The fresh and cached headers force distinct texts over any shared body. -/
lemma hrm_header_ne (S : String) :
    "# HRM Result\n\n" ++ S ≠ "# HRM Result (cached)\n\n" ++ S := by
  intro h
  have hl := congrArg String.length h
  have h14 : ("# HRM Result\n\n" : String).length = 14 := rfl
  have h23 : ("# HRM Result (cached)\n\n" : String).length = 23 := rfl
  simp only [String.length_append, h14, h23] at hl
  omega

/-- A concrete value for the `default_task` read in the post-settings
scenarios. -/
def hrmDtEx : PyVal := .str "sudoku"

/-- A concrete value for the `default_strategy` read in the post-settings
scenarios. -/
def hrmDsEx : PyVal := .none

/-- An 81-digit grid with a duplicated `5` in the first row (and first box):
malformed by `is_valid_sudoku`. -/
def badGrid : String :=
  "550070000600195000098000060800060003400803001700020006060000280000419005000080079"

/-- A solver task whose sole message carries the malformed grid. -/
def hrmBadGridTask : Task := { intent := .solve, messages := [⟨"user", badGrid⟩] }

/-- A solver task whose sole message carries the spec's well-formed example
grid. -/
def hrmGoodGridTask : Task :=
  { intent := .solve, messages := [⟨"user", String.mk exampleGrid⟩] }

/-- A concrete successful upstream payload. -/
def hrmAnswerPayload : List (String × PyVal) := [("answer", .str "done")]

/-- C2: the input grid is malformed (duplicate digit in its first row), yet
`HrmProvider.invoke` performs no grid extraction or validation at all — it
raises `AttributeError` reading the undefined `SETTINGS.hrm.default_task`
before any cache lookup or network access, the very same outcome it produces
on the spec's well-formed example grid, instead of validating the grid and
short-circuiting with `ok=false`. -/
theorem hrm_skips_grid_validation :
    is_valid_sudoku badGrid.data = false ∧
    is_valid_sudoku exampleGrid = true ∧
    hrmInvoke {} Cache.empty (.ok (.dict hrmAnswerPayload)) 0 hrmBadGridTask =
      ⟨.error (.exc "'HrmCfg' object has no attribute 'default_task'"),
        Cache.empty, false⟩ ∧
    hrmInvoke {} Cache.empty (.ok (.dict hrmAnswerPayload)) 0 hrmGoodGridTask =
      ⟨.error (.exc "'HrmCfg' object has no attribute 'default_task'"),
        Cache.empty, false⟩ :=
  ⟨by decide, by decide, rfl, rfl⟩

/-- C6 (amended): `HrmProvider.invoke` raises `AttributeError` at the
`SETTINGS.hrm.default_task` read on every call — before the cache key is
computed — so no cache miss or hit is reachable in the shipped program.  In
the code below those reads (`hrmInvokeAfterSettings`, hrm.py's lines from
the payload build onward as a function of the values the reads would
produce), the first call with an uncached canonical payload attempts the
upstream call and stores the successful payload; an identical second call is
a cache hit that consults no upstream oracle and returns `ok=true` with the
`"cached"` warning and the same summary body — under the
`# HRM Result (cached)` header, so the full rendered texts of the two calls
always differ. -/
theorem hrm_cache_miss_then_hit :
    (∀ (cfg : HrmCfg) (cache : Cache.State) (up : Except PyErr PyVal)
        (lat : Nat) (t : Task),
        hrmInvoke cfg cache up lat t =
          ⟨.error (.exc "'HrmCfg' object has no attribute 'default_task'"),
            cache, false⟩) ∧
    (∀ (dt ds : PyVal) (cache0 : Cache.State) (d : List (String × PyVal))
      (lat1 lat2 : Nat) (t : Task) (up2 : Except PyErr PyVal),
      Cache.get (hrmCacheKey dt ds t) cache0 = Option.none → d ≠ [] →
      (hrmInvokeAfterSettings dt ds cache0 (.ok (.dict d)) lat1 t).calledUpstream = true ∧
      (hrmInvokeAfterSettings dt ds cache0 (.ok (.dict d)) lat1 t).cache =
        Cache.set_ (hrmCacheKey dt ds t) (.dict d) cache0 ∧
      (hrmInvokeAfterSettings dt ds cache0 (.ok (.dict d)) lat1 t).result =
        .ok { ok := true, text := "# HRM Result\n\n" ++ summarisePayload d,
              data := .dict d, usage := { latency_ms := lat1 } } ∧
      (hrmInvokeAfterSettings dt ds
        (hrmInvokeAfterSettings dt ds cache0 (.ok (.dict d)) lat1 t).cache
        up2 lat2 t).calledUpstream = false ∧
      (hrmInvokeAfterSettings dt ds
        (hrmInvokeAfterSettings dt ds cache0 (.ok (.dict d)) lat1 t).cache
        up2 lat2 t).result =
        .ok { ok := true, text := "# HRM Result (cached)\n\n" ++ summarisePayload d,
              data := .dict d, warnings := ["cached"],
              usage := { latency_ms := lat2 } } ∧
      "# HRM Result\n\n" ++ summarisePayload d ≠
        "# HRM Result (cached)\n\n" ++ summarisePayload d) := by
  constructor
  · intro cfg cache up lat t
    exact hrmInvoke_attr_error cfg cache up lat t
  · intro dt ds cache0 d lat1 lat2 t up2 hmiss hne
    have h1 : hrmInvokeAfterSettings dt ds cache0 (.ok (.dict d)) lat1 t =
        hrmMiss cache0 (hrmCacheKey dt ds t) (.ok (.dict d)) lat1 :=
      hrmInvoke_miss dt ds cache0 _ lat1 t hmiss
    have hcache : (hrmInvokeAfterSettings dt ds cache0 (.ok (.dict d)) lat1 t).cache =
        Cache.set_ (hrmCacheKey dt ds t) (.dict d) cache0 := by
      rw [h1]; rfl
    have hhit : Cache.get (hrmCacheKey dt ds t)
        (hrmInvokeAfterSettings dt ds cache0 (.ok (.dict d)) lat1 t).cache =
        some (.dict d) := by
      rw [hcache]; exact cache_get_set_self _ _ _
    have h2 := hrmInvoke_hit dt ds _ up2 lat2 t d hhit hne
    refine ⟨by rw [h1]; rfl, hcache, by rw [h1]; rfl, by rw [h2], by rw [h2],
      hrm_header_ne _⟩

/-- A concrete conversation for the caching scenario. -/
def hrmTaskEx : Task := { intent := .solve, messages := [⟨"user", "solve 12 3"⟩] }

/-- A concrete stored payload for the caching scenario. -/
def hrmDEx : List (String × PyVal) := [("answer", .str "42")]

/-- Witness for C6: the concrete miss-then-hit scenario of the post-settings
tail, instantiating the amended statement. -/
theorem hrm_cache_miss_then_hit_witness :
    (hrmInvokeAfterSettings hrmDtEx hrmDsEx Cache.empty (.ok (.dict hrmDEx)) 0
      hrmTaskEx).calledUpstream = true ∧
    (hrmInvokeAfterSettings hrmDtEx hrmDsEx Cache.empty (.ok (.dict hrmDEx)) 0
      hrmTaskEx).cache =
      Cache.set_ (hrmCacheKey hrmDtEx hrmDsEx hrmTaskEx) (.dict hrmDEx) Cache.empty ∧
    (hrmInvokeAfterSettings hrmDtEx hrmDsEx Cache.empty (.ok (.dict hrmDEx)) 0
      hrmTaskEx).result =
      .ok { ok := true, text := "# HRM Result\n\n" ++ summarisePayload hrmDEx,
            data := .dict hrmDEx, usage := { latency_ms := 0 } } ∧
    (hrmInvokeAfterSettings hrmDtEx hrmDsEx
      (hrmInvokeAfterSettings hrmDtEx hrmDsEx Cache.empty (.ok (.dict hrmDEx)) 0
        hrmTaskEx).cache (.ok (.dict hrmDEx)) 0 hrmTaskEx).calledUpstream = false ∧
    (hrmInvokeAfterSettings hrmDtEx hrmDsEx
      (hrmInvokeAfterSettings hrmDtEx hrmDsEx Cache.empty (.ok (.dict hrmDEx)) 0
        hrmTaskEx).cache (.ok (.dict hrmDEx)) 0 hrmTaskEx).result =
      .ok { ok := true, text := "# HRM Result (cached)\n\n" ++ summarisePayload hrmDEx,
            data := .dict hrmDEx, warnings := ["cached"], usage := { latency_ms := 0 } } ∧
    "# HRM Result\n\n" ++ summarisePayload hrmDEx ≠
      "# HRM Result (cached)\n\n" ++ summarisePayload hrmDEx :=
  hrm_cache_miss_then_hit.2 hrmDtEx hrmDsEx Cache.empty hrmDEx 0 0 hrmTaskEx
    (.ok (.dict hrmDEx)) rfl (List.cons_ne_nil _ _)

/-- Counterexample for C6 as stated: at a concrete solver input the first
`invoke` is not a cache miss — it raises `AttributeError` before computing
the cache key, attempts no upstream call and stores nothing. -/
theorem hrm_first_call_raises_cex :
    hrmInvoke {} Cache.empty (.ok (.dict hrmDEx)) 0 hrmTaskEx =
      ⟨.error (.exc "'HrmCfg' object has no attribute 'default_task'"),
        Cache.empty, false⟩ := rfl

/-- C8: `put` followed by `get` of the same key returns the stored value;
`get` on a fresh store returns `none`; both operations address the store by
the SHA-256 hex digest of the key rather than the raw key. -/
theorem cache_roundtrip_spec :
    (∀ (k : String) (v : PyVal) (st : Cache.State),
        Cache.get k (Cache.set_ k v st) = some v) ∧
    (∀ k : String, Cache.get k Cache.empty = Option.none) ∧
    (∀ (k : String) (st : Cache.State),
        Cache.get k st = st.lookup (Sha256.hexdigest k)) ∧
    (∀ (k : String) (v : PyVal) (st : Cache.State),
        Cache.set_ k v st =
          (Sha256.hexdigest k, v) :: st.filter (fun p => p.1 != Sha256.hexdigest k)) := by
  refine ⟨?_, ?_, ?_, ?_⟩
  · intro k v st
    simp [Cache.get, Cache.set_, List.lookup]
  · intro k
    simp [Cache.get, Cache.empty, List.lookup]
  · intro k st
    rfl
  · intro k v st
    rfl

/-! ### Sudoku validator claim (C9) -/

/-- Cell at flat position `i` (out-of-range positions read as blank; all
positions used below are in range). -/
def cell (g : List Char) (i : Nat) : Char := g.getD i '0'

/-- Two flat positions share a row, a column or a 3×3 box. -/
def sameUnit (i j : Nat) : Prop :=
  rowOf i = rowOf j ∨ colOf i = colOf j ∨ boxAt i = boxAt j

instance (i j : Nat) : Decidable (sameUnit i j) := by
  unfold sameUnit
  infer_instance

/-- A duplicate pair: positions `i < j` in the same unit holding the same
non-blank character. -/
def Conflict (g : List Char) (i j : Nat) : Prop :=
  i < j ∧ sameUnit i j ∧ isBlank (cell g i) = false ∧
    isBlank (cell g j) = false ∧ cell g i = cell g j

/-- No repeated non-blank digit in any row, column or 3×3 box. -/
def NoDupUnits (g : List Char) : Prop :=
  ∀ i j : Fin 81, i.val ≠ j.val → sameUnit i.val j.val →
    isBlank (cell g i.val) = false → isBlank (cell g j.val) = false →
    cell g i.val ≠ cell g j.val

lemma sameUnit_symm {i j : Nat} (h : sameUnit i j) : sameUnit j i := by
  rcases h with h | h | h
  · exact Or.inl h.symm
  · exact Or.inr (Or.inl h.symm)
  · exact Or.inr (Or.inr h.symm)

/-- Loop invariant for `sudokuLoop`: with the three set families describing
exactly the non-blank characters of the already processed prefix, the loop
accepts iff no conflict pair ends in the unprocessed suffix. -/
lemma sudokuLoop_spec :
    ∀ (rest : List Char) (g : List Char) (n : Nat),
      g.drop n = rest →
      ∀ (rows cols boxes : Nat → List Char),
      (∀ r ch, ch ∈ rows r ↔ ∃ i, i < n ∧ rowOf i = r ∧
          isBlank (cell g i) = false ∧ cell g i = ch) →
      (∀ c ch, ch ∈ cols c ↔ ∃ i, i < n ∧ colOf i = c ∧
          isBlank (cell g i) = false ∧ cell g i = ch) →
      (∀ b ch, ch ∈ boxes b ↔ ∃ i, i < n ∧ boxAt i = b ∧
          isBlank (cell g i) = false ∧ cell g i = ch) →
      (sudokuLoop rest n rows cols boxes = true ↔
        ∀ i j, n ≤ j → j < g.length → Conflict g i j → False) := by
  intro rest
  induction rest with
  | nil =>
      intro g n hdrop rows cols boxes _ _ _
      have hlen : g.length ≤ n := by
        by_contra hlt
        push_neg at hlt
        have hne := List.drop_eq_nil_iff.mp hdrop
        omega
      simp only [sudokuLoop]
      constructor
      · intro _ i j hj hl _
        omega
      · intro _
        trivial
  | cons ch rest' ih =>
      intro g n hdrop rows cols boxes hrows hcols hboxes
      have hnlt : n < g.length := by
        by_contra hge
        push_neg at hge
        rw [List.drop_eq_nil_of_le hge] at hdrop
        exact List.noConfusion hdrop
      have hcell : cell g n = ch := by
        have h0 : (g.drop n)[0]? = some ch := by rw [hdrop]; simp
        rw [List.getElem?_drop] at h0
        simp only [Nat.add_zero] at h0
        simp [cell, List.getD_eq_getElem?_getD, h0]
      have htail : g.drop (n + 1) = rest' := by
        have hdd := List.drop_drop 1 n g
        rw [hdrop] at hdd
        simpa using hdd.symm
      by_cases hb : isBlank ch = true
      · -- blank character: skip, sets unchanged
        have hb' : isBlank (cell g n) = true := by rw [hcell]; exact hb
        simp only [sudokuLoop, hb, if_true]
        have hrows' : ∀ r c', c' ∈ rows r ↔ ∃ i, i < n + 1 ∧ rowOf i = r ∧
            isBlank (cell g i) = false ∧ cell g i = c' := by
          intro r c'
          rw [hrows r c']
          constructor
          · rintro ⟨i, hi, h1, h2, h3⟩
            exact ⟨i, by omega, h1, h2, h3⟩
          · rintro ⟨i, hi, h1, h2, h3⟩
            rcases Nat.lt_succ_iff_lt_or_eq.mp hi with hi' | rfl
            · exact ⟨i, hi', h1, h2, h3⟩
            · rw [hb'] at h2
              exact Bool.noConfusion h2
        have hcols' : ∀ c c', c' ∈ cols c ↔ ∃ i, i < n + 1 ∧ colOf i = c ∧
            isBlank (cell g i) = false ∧ cell g i = c' := by
          intro c c'
          rw [hcols c c']
          constructor
          · rintro ⟨i, hi, h1, h2, h3⟩
            exact ⟨i, by omega, h1, h2, h3⟩
          · rintro ⟨i, hi, h1, h2, h3⟩
            rcases Nat.lt_succ_iff_lt_or_eq.mp hi with hi' | rfl
            · exact ⟨i, hi', h1, h2, h3⟩
            · rw [hb'] at h2
              exact Bool.noConfusion h2
        have hboxes' : ∀ b c', c' ∈ boxes b ↔ ∃ i, i < n + 1 ∧ boxAt i = b ∧
            isBlank (cell g i) = false ∧ cell g i = c' := by
          intro b c'
          rw [hboxes b c']
          constructor
          · rintro ⟨i, hi, h1, h2, h3⟩
            exact ⟨i, by omega, h1, h2, h3⟩
          · rintro ⟨i, hi, h1, h2, h3⟩
            rcases Nat.lt_succ_iff_lt_or_eq.mp hi with hi' | rfl
            · exact ⟨i, hi', h1, h2, h3⟩
            · rw [hb'] at h2
              exact Bool.noConfusion h2
        rw [ih g (n + 1) htail rows cols boxes hrows' hcols' hboxes']
        constructor
        · intro h i j hj hl hc
          rcases Nat.eq_or_lt_of_le hj with rfl | hj'
          · obtain ⟨_, _, _, hnb2, _⟩ := hc
            rw [hb'] at hnb2
            exact Bool.noConfusion hnb2
          · exact h i j (Nat.succ_le_of_lt hj') hl hc
        · intro h i j hj hl hc
          exact h i j (by omega) hl hc
      · -- non-blank character
        have hbf : isBlank ch = false := by
          revert hb
          cases isBlank ch <;> simp
        have hb' : isBlank (cell g n) = false := by rw [hcell]; exact hbf
        simp only [sudokuLoop, hbf, Bool.false_eq_true, if_false]
        by_cases hmem : ch ∈ rows (rowOf n) ∨ ch ∈ cols (colOf n) ∨
            ch ∈ boxes (boxOf (rowOf n) (colOf n))
        · rw [if_pos hmem]
          constructor
          · intro hfalse
            exact Bool.noConfusion hfalse
          · intro hrhs
            exfalso
            rcases hmem with hm | hm | hm
            · obtain ⟨i, hi, h1, h2, h3⟩ := (hrows (rowOf n) ch).mp hm
              exact hrhs i n (Nat.le_refl n) hnlt
                ⟨hi, Or.inl h1, h2, hb', h3.trans hcell.symm⟩
            · obtain ⟨i, hi, h1, h2, h3⟩ := (hcols (colOf n) ch).mp hm
              exact hrhs i n (Nat.le_refl n) hnlt
                ⟨hi, Or.inr (Or.inl h1), h2, hb', h3.trans hcell.symm⟩
            · obtain ⟨i, hi, h1, h2, h3⟩ := (hboxes (boxOf (rowOf n) (colOf n)) ch).mp hm
              exact hrhs i n (Nat.le_refl n) hnlt
                ⟨hi, Or.inr (Or.inr h1), h2, hb', h3.trans hcell.symm⟩
        · rw [if_neg hmem]
          have hrows' : ∀ r c', c' ∈ (fun x => if x = rowOf n then
              ch :: rows (rowOf n) else rows x) r ↔ ∃ i, i < n + 1 ∧ rowOf i = r ∧
              isBlank (cell g i) = false ∧ cell g i = c' := by
            intro r c'
            by_cases hre : r = rowOf n
            · subst hre
              have hif : (fun x => if x = rowOf n then ch :: rows (rowOf n)
                  else rows x) (rowOf n) = ch :: rows (rowOf n) := by simp
              rw [hif, List.mem_cons, hrows (rowOf n) c']
              constructor
              · rintro (rfl | ⟨i, hi, h1, h2, h3⟩)
                · exact ⟨n, by omega, rfl, hb', hcell⟩
                · exact ⟨i, by omega, h1, h2, h3⟩
              · rintro ⟨i, hi, h1, h2, h3⟩
                rcases Nat.lt_succ_iff_lt_or_eq.mp hi with hi' | rfl
                · exact Or.inr ⟨i, hi', h1, h2, h3⟩
                · left
                  rw [← h3]
                  exact hcell
            · have hif : (fun x => if x = rowOf n then ch :: rows (rowOf n)
                  else rows x) r = rows r := by simp [hre]
              rw [hif, hrows r c']
              constructor
              · rintro ⟨i, hi, h1, h2, h3⟩
                exact ⟨i, by omega, h1, h2, h3⟩
              · rintro ⟨i, hi, h1, h2, h3⟩
                rcases Nat.lt_succ_iff_lt_or_eq.mp hi with hi' | rfl
                · exact ⟨i, hi', h1, h2, h3⟩
                · exact absurd h1.symm hre
          have hcols' : ∀ c c', c' ∈ (fun x => if x = colOf n then
              ch :: cols (colOf n) else cols x) c ↔ ∃ i, i < n + 1 ∧ colOf i = c ∧
              isBlank (cell g i) = false ∧ cell g i = c' := by
            intro c c'
            by_cases hce : c = colOf n
            · subst hce
              have hif : (fun x => if x = colOf n then ch :: cols (colOf n)
                  else cols x) (colOf n) = ch :: cols (colOf n) := by simp
              rw [hif, List.mem_cons, hcols (colOf n) c']
              constructor
              · rintro (rfl | ⟨i, hi, h1, h2, h3⟩)
                · exact ⟨n, by omega, rfl, hb', hcell⟩
                · exact ⟨i, by omega, h1, h2, h3⟩
              · rintro ⟨i, hi, h1, h2, h3⟩
                rcases Nat.lt_succ_iff_lt_or_eq.mp hi with hi' | rfl
                · exact Or.inr ⟨i, hi', h1, h2, h3⟩
                · left
                  rw [← h3]
                  exact hcell
            · have hif : (fun x => if x = colOf n then ch :: cols (colOf n)
                  else cols x) c = cols c := by simp [hce]
              rw [hif, hcols c c']
              constructor
              · rintro ⟨i, hi, h1, h2, h3⟩
                exact ⟨i, by omega, h1, h2, h3⟩
              · rintro ⟨i, hi, h1, h2, h3⟩
                rcases Nat.lt_succ_iff_lt_or_eq.mp hi with hi' | rfl
                · exact ⟨i, hi', h1, h2, h3⟩
                · exact absurd h1.symm hce
          have hboxes' : ∀ b c', c' ∈ (fun x => if x = boxOf (rowOf n) (colOf n) then
              ch :: boxes (boxOf (rowOf n) (colOf n)) else boxes x) b ↔
              ∃ i, i < n + 1 ∧ boxAt i = b ∧
              isBlank (cell g i) = false ∧ cell g i = c' := by
            intro b c'
            by_cases hbe : b = boxOf (rowOf n) (colOf n)
            · subst hbe
              have hif : (fun x => if x = boxOf (rowOf n) (colOf n) then
                  ch :: boxes (boxOf (rowOf n) (colOf n)) else boxes x)
                  (boxOf (rowOf n) (colOf n)) =
                  ch :: boxes (boxOf (rowOf n) (colOf n)) := by simp
              rw [hif, List.mem_cons, hboxes (boxOf (rowOf n) (colOf n)) c']
              constructor
              · rintro (rfl | ⟨i, hi, h1, h2, h3⟩)
                · exact ⟨n, by omega, rfl, hb', hcell⟩
                · exact ⟨i, by omega, h1, h2, h3⟩
              · rintro ⟨i, hi, h1, h2, h3⟩
                rcases Nat.lt_succ_iff_lt_or_eq.mp hi with hi' | rfl
                · exact Or.inr ⟨i, hi', h1, h2, h3⟩
                · left
                  rw [← h3]
                  exact hcell
            · have hif : (fun x => if x = boxOf (rowOf n) (colOf n) then
                  ch :: boxes (boxOf (rowOf n) (colOf n)) else boxes x) b =
                  boxes b := by simp [hbe]
              rw [hif, hboxes b c']
              constructor
              · rintro ⟨i, hi, h1, h2, h3⟩
                exact ⟨i, by omega, h1, h2, h3⟩
              · rintro ⟨i, hi, h1, h2, h3⟩
                rcases Nat.lt_succ_iff_lt_or_eq.mp hi with hi' | rfl
                · exact ⟨i, hi', h1, h2, h3⟩
                · exact absurd h1.symm hbe
          rw [ih g (n + 1) htail _ _ _ hrows' hcols' hboxes']
          constructor
          · intro h i j hj hl hc
            rcases Nat.eq_or_lt_of_le hj with rfl | hj'
            · obtain ⟨hij, hsu, hnbi, hnbj, hceq⟩ := hc
              apply hmem
              rcases hsu with hu | hu | hu
              · exact Or.inl ((hrows (rowOf n) ch).mpr
                  ⟨i, hij, hu, hnbi, hceq.trans hcell⟩)
              · exact Or.inr (Or.inl ((hcols (colOf n) ch).mpr
                  ⟨i, hij, hu, hnbi, hceq.trans hcell⟩))
              · exact Or.inr (Or.inr ((hboxes (boxOf (rowOf n) (colOf n)) ch).mpr
                  ⟨i, hij, hu, hnbi, hceq.trans hcell⟩))
            · exact h i j (Nat.succ_le_of_lt hj') hl hc
          · intro h i j hj hl hc
            exact h i j (by omega) hl hc

/-- The loop from the initial empty sets accepts iff the grid has no
conflict pair at all. -/
lemma sudokuLoop_zero (g : List Char) :
    sudokuLoop g 0 (fun _ => []) (fun _ => []) (fun _ => []) = true ↔
      ∀ i j, 0 ≤ j → j < g.length → Conflict g i j → False := by
  apply sudokuLoop_spec g g 0 (by simp)
  · intro r ch
    simp
  · intro c ch
    simp
  · intro b ch
    simp

/-- C9: `is_valid_sudoku` accepts exactly the strings of 81 digit characters
with no repeated non-blank digit in any row, column or 3×3 box; in
particular it accepts the spec's example grid, rejects `"0" * 80` (wrong
length), and rejects every string whose length is not 81. -/
theorem sudoku_validator_spec :
    (∀ g : List Char, is_valid_sudoku g = true ↔
        (g.length = 81 ∧ g.all pyIsDigit = true ∧ NoDupUnits g)) ∧
    is_valid_sudoku exampleGrid = true ∧
    is_valid_sudoku (List.replicate 80 '0') = false ∧
    (∀ g : List Char, g.length ≠ 81 → is_valid_sudoku g = false) := by
  have hmain : ∀ g : List Char, is_valid_sudoku g = true ↔
      (g.length = 81 ∧ g.all pyIsDigit = true ∧ NoDupUnits g) := by
    intro g
    rw [is_valid_sudoku, Bool.and_eq_true, sudokuLoop_zero g]
    constructor
    · rintro ⟨hv, hnc⟩
      have hv' : g.length = 81 ∧ g.all pyIsDigit = true := by
        have := hv
        simp only [valid_81, Bool.and_eq_true, beq_iff_eq] at this
        exact this
      refine ⟨hv'.1, hv'.2, ?_⟩
      intro i j hne hsu hnb1 hnb2 hceq
      rcases Nat.lt_or_ge i.val j.val with hij | hge
      · exact hnc i.val j.val (Nat.zero_le _)
          (by rw [hv'.1]; exact j.isLt) ⟨hij, hsu, hnb1, hnb2, hceq⟩
      · have hij : j.val < i.val := by omega
        exact hnc j.val i.val (Nat.zero_le _)
          (by rw [hv'.1]; exact i.isLt)
          ⟨hij, sameUnit_symm hsu, hnb2, hnb1, hceq.symm⟩
    · rintro ⟨hlen, hdig, hnd⟩
      constructor
      · simp [valid_81, hlen, hdig]
      · intro i j hj hl hc
        obtain ⟨hij, hsu, hnb1, hnb2, hceq⟩ := hc
        rw [hlen] at hl
        exact hnd ⟨i, by omega⟩ ⟨j, hl⟩ (by simp; omega) hsu hnb1 hnb2 hceq
  refine ⟨hmain, ?_, ?_, ?_⟩
  · decide
  · decide
  · intro g hlen
    cases hv : is_valid_sudoku g with
    | false => rfl
    | true => exact absurd ((hmain g).mp hv).1 hlen

/-- Witness for C9: a length-30 grid is rejected for its length. -/
theorem sudoku_validator_spec_witness :
    is_valid_sudoku (List.replicate 30 '0') = false :=
  sudoku_validator_spec.2.2.2 (List.replicate 30 '0') (by simp)

/-! ### Exception-propagation policy (C1) and failure invariant (C4) -/

/-- The miss path of the solver provider always returns a result. -/
lemma hrmMiss_result_ok (cache : Cache.State) (key : String)
    (up : Except PyErr PyVal) (lat : Nat) :
    ∃ r, (hrmMiss cache key up lat).result = .ok r := by
  cases up with
  | error e => exact ⟨_, rfl⟩
  | ok data => cases data <;> exact ⟨_, rfl⟩

/-- Every `ok=false` result of the miss path has non-empty text and
warnings. -/
lemma hrmMiss_result_failure (cache : Cache.State) (key : String)
    (up : Except PyErr PyVal) (lat : Nat) (r : ProviderResult)
    (hr : (hrmMiss cache key up lat).result = .ok r) (hok : r.ok = false) :
    r.text ≠ "" ∧ r.warnings ≠ [] := by
  cases up with
  | error e =>
      simp only [hrmMiss] at hr
      obtain rfl := Except.ok.inj hr
      exact ⟨by simp, by simp⟩
  | ok data =>
      cases data with
      | dict kvs =>
          simp only [hrmMiss] at hr
          obtain rfl := Except.ok.inj hr
          simp at hok
      | none =>
          simp only [hrmMiss] at hr
          obtain rfl := Except.ok.inj hr
          exact ⟨by simp, by simp⟩
      | bool b =>
          simp only [hrmMiss] at hr
          obtain rfl := Except.ok.inj hr
          exact ⟨by simp, by simp⟩
      | int n =>
          simp only [hrmMiss] at hr
          obtain rfl := Except.ok.inj hr
          exact ⟨by simp, by simp⟩
      | str s =>
          simp only [hrmMiss] at hr
          obtain rfl := Except.ok.inj hr
          exact ⟨by simp, by simp⟩
      | list xs =>
          simp only [hrmMiss] at hr
          obtain rfl := Except.ok.inj hr
          exact ⟨by simp, by simp⟩

/-- C1 (amended): the guarded call sections convert upstream failures into
`ok=false` results — the chat providers on double/single failure, web search
for every backend outcome once its pre-`try` statements have run — and the
speech stubs always return `ok=true`; but exceptions do escape `invoke`
outside the guards: `HrmProvider.invoke` raises `AttributeError` on every
call (reading the undefined `SETTINGS.hrm.default_task` before its `try`),
`RagProvider.invoke` has no handler at all and raises `IndexError` on an
empty message list, and `WebSearchProvider.invoke` raises `IndexError`
reading the last message when search is enabled and the message list is
empty. -/
theorem provider_invoke_exception_policy :
    (∀ (st : LlmSettings) (call : String → Except PyErr String) (lat : Nat)
        (t : Task) (e1 e2 : PyErr), call st.primary_model = .error e1 →
        call st.fallback_model = .error e2 → (llmInvoke st call lat t).ok = false) ∧
    (∀ (key : String) (call : Except PyErr String) (lat : Nat) (t : Task)
        (e : PyErr), key ≠ "" → call = .error e →
        (openaiInvoke key call lat t).ok = false) ∧
    (∀ (st : SearchSettings) (tk sk : String) (search : Except PyErr (List Citation))
        (lat : Nat) (t : Task) (m : Message) (k : Int),
        t.messages.getLast? = some m →
        pyToInt (paramGetD t "k" (.int st.max_results)) = .ok k →
        ∃ r, websearchInvoke st tk sk search lat t = .ok r) ∧
    (∀ (cfg : HrmCfg) (cache : Cache.State) (up : Except PyErr PyVal)
        (lat : Nat) (t : Task),
        hrmInvoke cfg cache up lat t =
          ⟨.error (.exc "'HrmCfg' object has no attribute 'default_task'"),
            cache, false⟩) ∧
    (∀ (st : RagSettings) (items : List DenseItem) (count : Nat)
        (scoreOf : Nat → ℚ) (bmDocs : List BmDoc) (lat : Nat) (t : Task),
        t.messages = [] →
        ragInvoke st items count scoreOf bmDocs lat t = .error .indexError) ∧
    (∀ (st : SearchSettings) (tk sk : String) (search : Except PyErr (List Citation))
        (lat : Nat) (t : Task), st.enabled = true → t.messages = [] →
        websearchInvoke st tk sk search lat t = .error .indexError) ∧
    (∀ t, (sttInvoke t).ok = true ∧ (ttsInvoke t).ok = true) := by
  refine ⟨?_, ?_, ?_, ?_, ?_, ?_, ?_⟩
  · intro st call lat t e1 e2 h1 h2
    simp [llmInvoke, h1, h2]
  · intro key call lat t e hk hc
    simp [openaiInvoke, hk, hc]
  · intro st tk sk search lat t m k h1 h2
    by_cases he : st.enabled = false
    · simp only [websearchInvoke, he, if_true]
      exact ⟨_, rfl⟩
    · simp only [websearchInvoke, he, if_false, h1, h2]
      by_cases hp : st.provider = "tavily"
      · simp only [hp, if_true]
        by_cases htk : tk = ""
        · simp only [htk, if_true]
          exact ⟨_, rfl⟩
        · simp only [htk, if_false]
          cases search with
          | ok cs => exact ⟨_, rfl⟩
          | error e => exact ⟨_, rfl⟩
      · simp only [hp, if_false]
        by_cases hps : st.provider = "serpapi"
        · simp only [hps, if_true]
          by_cases hsk : sk = ""
          · simp only [hsk, if_true]
            exact ⟨_, rfl⟩
          · simp only [hsk, if_false]
            cases search with
            | ok cs => exact ⟨_, rfl⟩
            | error e => exact ⟨_, rfl⟩
        · simp only [hps, if_false]
          exact ⟨_, rfl⟩
  · intro cfg cache up lat t
    exact hrmInvoke_attr_error cfg cache up lat t
  · intro st items count scoreOf bmDocs lat t h
    simp [ragInvoke, h]
  · intro st tk sk search lat t he hm
    simp [websearchInvoke, he, hm]
  · intro t
    exact ⟨rfl, rfl⟩

/-- Counterexample for C1 as stated: on a task with an empty message list,
the retrieval provider's `invoke` propagates `IndexError` to its caller
instead of returning an `ok=false` result. -/
theorem rag_invoke_raises_cex :
    ragInvoke {} [] 0 (fun _ => 0) [] 0
      { intent := Capability.rag, messages := [] } = .error .indexError := rfl

/-- Witness for C1 (amended): the chat provider converts a double upstream
failure into an `ok=false` result rather than an exception. -/
theorem provider_invoke_exception_policy_witness :
    (llmInvoke {} (fun _ => .error (.exc "boom")) 0 taskChatEx).ok = false :=
  provider_invoke_exception_policy.1 {} (fun _ => .error (.exc "boom")) 0 taskChatEx
    (.exc "boom") (.exc "boom") rfl rfl

/-- C4 (amended): every `ok=false` result carries a non-empty user-facing
text; its warnings list is non-empty except for the three web-search
credential/configuration short-circuits and the OpenAI missing-key
short-circuit, which return empty warnings; retrieval and the speech stubs
never return `ok=false`.  The solver conjunct ranges over its post-settings
tail (`hrmInvokeAfterSettings`), a superset of the real provider's results:
the shipped `invoke` raises before returning any result at all, making the
invariant vacuous there. -/
theorem result_failure_invariant :
    (∀ (st : LlmSettings) (call : String → Except PyErr String) (lat : Nat)
        (t : Task), (llmInvoke st call lat t).ok = false →
        (llmInvoke st call lat t).text ≠ "" ∧ (llmInvoke st call lat t).warnings ≠ []) ∧
    (∀ (key : String) (call : Except PyErr String) (lat : Nat) (t : Task),
        (openaiInvoke key call lat t).ok = false →
        (openaiInvoke key call lat t).text ≠ "" ∧
        ((openaiInvoke key call lat t).warnings ≠ [] ∨
          (openaiInvoke key call lat t).text = "Set OPENAI_API_KEY in .env.local.")) ∧
    (∀ (st : SearchSettings) (tk sk : String) (search : Except PyErr (List Citation))
        (lat : Nat) (t : Task) (r : ProviderResult),
        websearchInvoke st tk sk search lat t = .ok r → r.ok = false →
        r.text ≠ "" ∧ (r.warnings ≠ [] ∨ r.text = "Missing TAVILY_API_KEY." ∨
          r.text = "Missing SERPAPI_API_KEY." ∨ r.text = "Unknown search provider.")) ∧
    (∀ (dt ds : PyVal) (cache : Cache.State) (up : Except PyErr PyVal)
        (lat : Nat) (t : Task) (r : ProviderResult),
        (hrmInvokeAfterSettings dt ds cache up lat t).result = .ok r → r.ok = false →
        r.text ≠ "" ∧ r.warnings ≠ []) ∧
    (∀ (st : RagSettings) (items : List DenseItem) (count : Nat)
        (scoreOf : Nat → ℚ) (bmDocs : List BmDoc) (lat : Nat) (t : Task)
        (out : RagOutcome),
        ragInvoke st items count scoreOf bmDocs lat t = .ok out →
        out.result.ok = true) ∧
    (∀ t, (sttInvoke t).ok = true ∧ (ttsInvoke t).ok = true) := by
  refine ⟨?_, ?_, ?_, ?_, ?_, ?_⟩
  · intro st call lat t hok
    cases h1 : call st.primary_model with
    | ok c => simp [llmInvoke, h1] at hok
    | error e1 =>
      cases h2 : call st.fallback_model with
      | ok c => simp [llmInvoke, h1, h2] at hok
      | error e2 =>
          simp only [llmInvoke, h1, h2]
          exact ⟨by simp, by simp⟩
  · intro key call lat t hok
    by_cases hk : key = ""
    · simp only [openaiInvoke, hk, if_true]
      exact ⟨by simp, by simp⟩
    · cases hc : call with
      | ok c => simp [openaiInvoke, hk, hc] at hok
      | error e =>
          simp only [openaiInvoke, hk, if_false, hc]
          exact ⟨by simp, by simp⟩
  · intro st tk sk search lat t r hr hok
    by_cases he : st.enabled = false
    · simp only [websearchInvoke, he, if_true, Except.ok.injEq] at hr
      subst hr
      exact ⟨by simp, Or.inl (by simp)⟩
    · simp only [websearchInvoke, he, if_false] at hr
      cases hlast : t.messages.getLast? with
      | none => rw [hlast] at hr; exact absurd hr (by simp)
      | some m =>
        rw [hlast] at hr
        cases hint : pyToInt (paramGetD t "k" (.int st.max_results)) with
        | error e => rw [hint] at hr; exact absurd hr (by simp)
        | ok k =>
          rw [hint] at hr
          by_cases hp : st.provider = "tavily"
          · rw [if_pos hp] at hr
            by_cases htk : tk = ""
            · rw [if_pos htk] at hr
              obtain rfl := Except.ok.inj hr
              exact ⟨by simp, Or.inr (Or.inl rfl)⟩
            · rw [if_neg htk] at hr
              cases hs : search with
              | ok cs =>
                  rw [hs] at hr
                  obtain rfl := Except.ok.inj hr
                  simp at hok
              | error e =>
                  rw [hs] at hr
                  obtain rfl := Except.ok.inj hr
                  exact ⟨by simp, Or.inl (by simp)⟩
          · rw [if_neg hp] at hr
            by_cases hps : st.provider = "serpapi"
            · rw [if_pos hps] at hr
              by_cases hsk : sk = ""
              · rw [if_pos hsk] at hr
                obtain rfl := Except.ok.inj hr
                exact ⟨by simp, Or.inr (Or.inr (Or.inl rfl))⟩
              · rw [if_neg hsk] at hr
                cases hs : search with
                | ok cs =>
                    rw [hs] at hr
                    obtain rfl := Except.ok.inj hr
                    simp at hok
                | error e =>
                    rw [hs] at hr
                    obtain rfl := Except.ok.inj hr
                    exact ⟨by simp, Or.inl (by simp)⟩
            · rw [if_neg hps] at hr
              obtain rfl := Except.ok.inj hr
              exact ⟨by simp, Or.inr (Or.inr (Or.inr rfl))⟩
  · intro dt ds cache up lat t r hr hok
    simp only [hrmInvokeAfterSettings] at hr
    cases hget : Cache.get (hrmCacheKey dt ds t) cache with
    | none =>
        rw [hget] at hr
        dsimp only at hr
        exact hrmMiss_result_failure cache (hrmCacheKey dt ds t) up lat r hr hok
    | some v =>
        rw [hget] at hr
        dsimp only at hr
        by_cases ht : pyTruthy v = true
        · rw [if_pos ht] at hr
          cases v with
          | dict kvs =>
              obtain rfl := Except.ok.inj hr
              simp at hok
          | none => exact Except.noConfusion hr
          | bool b => exact Except.noConfusion hr
          | int n => exact Except.noConfusion hr
          | str s => exact Except.noConfusion hr
          | list xs => exact Except.noConfusion hr
        · rw [if_neg ht] at hr
          exact hrmMiss_result_failure cache (hrmCacheKey dt ds t) up lat r hr hok
  · intro st items count scoreOf bmDocs lat t out hout
    cases hlast : t.messages.getLast? with
    | none => rw [ragInvoke, hlast] at hout; exact absurd hout (by simp)
    | some m =>
      cases hint : pyToInt (paramGetD t "k" (.int st.k)) with
      | error e => rw [ragInvoke, hlast, hint] at hout; exact absurd hout (by simp)
      | ok k =>
          rw [ragInvoke, hlast, hint] at hout
          obtain rfl := Except.ok.inj hout
          rfl
  · intro t
    exact ⟨rfl, rfl⟩

/-- Search settings with the backend enabled. -/
def wsEnabledSt : SearchSettings := { enabled := true, provider := "tavily" }

/-- A search task. -/
def wsTaskEx : Task := { intent := Capability.search, messages := [⟨"user", "news"⟩] }

/-- Counterexample for C4 as stated: with search enabled and the Tavily key
missing, `invoke` returns `ok=false` with non-empty text but an empty
warnings list. -/
theorem websearch_empty_warnings_cex :
    websearchInvoke wsEnabledSt "" "" (.ok []) 0 wsTaskEx =
      .ok { ok := false, text := "Missing TAVILY_API_KEY." } ∧
    ({ ok := false, text := "Missing TAVILY_API_KEY." } : ProviderResult).warnings = [] :=
  ⟨rfl, rfl⟩

/-- Witness for C4 (amended): the chat provider's double-failure result has
non-empty text and non-empty warnings. -/
theorem result_failure_invariant_witness :
    (llmInvoke {} (fun _ => .error (.exc "conn refused")) 0 taskChatEx).text ≠ "" ∧
    (llmInvoke {} (fun _ => .error (.exc "conn refused")) 0 taskChatEx).warnings ≠ [] :=
  result_failure_invariant.1 {} (fun _ => .error (.exc "conn refused")) 0 taskChatEx rfl


end PearlLolo
